import Mathlib

/-!
Verification of the deepwiki-open documentation pipeline
(`api/documentation_agent.py`, `api/database.py`, `api/api.py`).

The Python sources are shallowly embedded: pure string manipulation is
translated to executable functions over `String` / `List Char`; the
stateful pipeline (`worker_thread` + `DocumentationAgent.generate_documentation`)
becomes a state-passing computation over an explicit write trace; the SQLite
store (`api/database.py`) becomes pure operations on an association-list
state.  External collaborators (the Bedrock generator, the GitHub fetcher,
the XML parser from `xml.etree` / `lxml`, SQLite itself succeeding or
failing) are parameters of an environment record, exactly one parameter per
external call site.
-/

namespace DW

/- ### Generic helpers for Python string semantics -/

/-- Python `needle in hay` prefix test on char lists (`hay` starts with `pat`). -/
def isPrefixList : List Char → List Char → Bool
  | [], _ => true
  | _ :: _, [] => false
  | a :: as, b :: bs => a == b && isPrefixList as bs

/-- Python `hay.find(pat)`: index of the first occurrence, `none` for `-1`. -/
def findSub : List Char → List Char → Option Nat
  | [], pat => if pat.isEmpty then some 0 else none
  | h :: t, pat =>
    if isPrefixList pat (h :: t) then some 0
    else (findSub t pat).map (· + 1)

/-- Python `pat in hay` (substring containment). -/
def containsSub (hay pat : String) : Bool := (findSub hay.data pat.data).isSome

/-- Python `s.replace(pat, rep)`: left-to-right, non-overlapping.  The fuel
argument is the length of the remaining input; every step consumes at least
one character, so `s.length` fuel always suffices. -/
def replaceAllAux (pat rep : List Char) : Nat → List Char → List Char
  | 0, s => s
  | fuel + 1, s =>
    match s with
    | [] => []
    | c :: cs =>
      if isPrefixList pat (c :: cs) && !pat.isEmpty then
        rep ++ replaceAllAux pat rep fuel ((c :: cs).drop pat.length)
      else
        c :: replaceAllAux pat rep fuel cs

/-- Python `s.replace(pat, rep)` on `String`. -/
def replaceAll (s pat rep : String) : String :=
  ⟨replaceAllAux pat.data rep.data s.data.length s.data⟩

/-- Python `s.replace('_', ' ')` as used for stage display names. -/
def usp (s : String) : String :=
  ⟨s.data.map (fun c => if c = '_' then ' ' else c)⟩

/-- Python `s.title()`: uppercase every letter that follows a non-letter,
lowercase the other letters. -/
def pyTitleAux : Bool → List Char → List Char
  | _, [] => []
  | prevAlpha, c :: cs =>
    if c.isAlpha then
      (if prevAlpha then c.toLower else c.toUpper) :: pyTitleAux true cs
    else
      c :: pyTitleAux false cs

/-- Python `s.title()` on `String`. -/
def pyTitle (s : String) : String := ⟨pyTitleAux false s.data⟩

/-- Python `"".join(c if c.isalnum() else "_" for c in title)`
(documentation_agent.py line 749). -/
def safeTitle (title : String) : String :=
  ⟨title.data.map (fun c => if c.isAlphanum then c else '_')⟩

/-- Split a char list on a separator character, Python `s.split(sep)`
semantics: the empty string splits to one empty field. -/
def splitOnC (sep : Char) : List Char → List (List Char)
  | [] => [[]]
  | c :: cs =>
    let r := splitOnC sep cs
    if c = sep then [] :: r
    else
      match r with
      | [] => [[c]]
      | h :: t => (c :: h) :: t

/-- Python `os.path.basename` for POSIX paths: the part after the last `/`. -/
def pyBasename (s : String) : String :=
  ⟨((splitOnC '/' s.data).getLast? ).getD []⟩

/-- Join lines with `'\n'`, Python `'\n'.join(lines)`. -/
def joinNlC : List (List Char) → List Char
  | [] => []
  | [l] => l
  | l :: ls => l ++ '\n' :: joinNlC ls

/-- Python dict lookup on an insertion-ordered association list. -/
def lookupR (rs : List (String × String)) (k : String) : Option String :=
  (rs.find? (·.1 == k)).map (·.2)

/-- Python dict insert/overwrite on an insertion-ordered association list. -/
def insertR (rs : List (String × String)) (k v : String) : List (String × String) :=
  if rs.any (·.1 == k) then rs.map (fun p => if p.1 == k then (k, v) else p)
  else rs ++ [(k, v)]

/- ### PromptAssembler: file-tree truncation
(`DocumentationAgent._create_user_prompt`, documentation_agent.py lines 432-462) -/

/-- `file_tree_tokens = len(file_tree) // 4` (line 434). -/
def treeTokens (ft : List Char) : Nat := ft.length / 4

/-- `file_tokens = len(file_path) // 4` (line 452). -/
def lineTokens (l : List Char) : Nat := l.length / 4

/-- The truncation loop of lines 447-457: keep lines while the accumulated
per-line token estimate stays within `MAX_FILE_TREE_TOKENS = 10000`;
`break` at the first line that does not fit. -/
def truncLoop : List (List Char) → Nat → List (List Char)
  | [], _ => []
  | f :: rest, cur =>
    if cur + lineTokens f ≤ 10000 then f :: truncLoop rest (cur + lineTokens f)
    else []

/-- The truncation marker appended at line 459. -/
def truncMarker : List Char := "\n...(more files omitted to fit token limit)\n".data

/-- The file-tree section of the `code_analysis` user prompt: the characters
appended between the two code fences at lines 443-462.  If the whole tree's
token estimate exceeds 10000 the tree is split on newlines, the kept lines
are rejoined and the marker is appended (lines 445-459); otherwise the tree
is emitted whole followed by a newline (line 461). -/
def fileTreeSectionChars (ft : List Char) : List Char :=
  if treeTokens ft > 10000 then
    joinNlC (truncLoop (splitOnC '\n' ft) 0) ++ truncMarker
  else ft ++ ['\n']

/-- Summed per-line token estimate of a list of lines. -/
def sumTokens (ls : List (List Char)) : Nat := (ls.map lineTokens).sum

/-- Summed character count of a list of lines. -/
def sumLen (ls : List (List Char)) : Nat := (ls.map List.length).sum

/- ### StageRunner retry loop
(`DocumentationAgent.process_stage`, documentation_agent.py lines 296-318) -/

/-- `"Too many tokens" in str(e)` (line 312): the recognized transient error. -/
def isTransientMsg (e : String) : Bool := containsSub e "Too many tokens"

/-- The retry loop of lines 300-318.  `attempt k` is the outcome of the k-th
agent invocation.  Returns (number of invocations, sleep durations in
seconds, final outcome).  `remaining` counts the iterations left in
`range(max_retries)`; the delay starts at 5 and doubles after each retried
transient failure. -/
def pyRetryAux (attempt : Nat → Except String String) (maxRetries : Nat) :
    Nat → Nat → Nat → List Nat → Nat × List Nat × Except String String
  | 0, _, _, sleeps => (0, sleeps, Except.error "range exhausted")
  | rem + 1, retry, delay, sleeps =>
    match attempt retry with
    | Except.ok r => (1, sleeps, Except.ok r)
    | Except.error e =>
      if isTransientMsg e = true ∧ retry < maxRetries - 1 then
        let out := pyRetryAux attempt maxRetries rem (retry + 1) (delay * 2) (sleeps ++ [delay])
        (out.1 + 1, out.2)
      else (1, sleeps, Except.error e)

/-- The retry policy with the source constants `max_retries = 3`,
`retry_delay = 5` (lines 300-301). -/
def pyRetry (attempt : Nat → Except String String) : Nat × List Nat × Except String String :=
  pyRetryAux attempt 3 3 0 5 []

/- ### JobStore (`api/database.py`) -/

/-- One row of the `documentation_tasks` table (database.py lines 54-68).
`id` is the association key. -/
structure JobRow where
  repoUrl : String
  title : String
  status : String
  progress : Nat
  currentStage : Option String
  error : Option String
  createdAt : String
  completedAt : Option String
  outputUrl : Option String
  taskData : Option String
deriving DecidableEq

/-- One row of the `documentation_stages` table (database.py lines 71-83),
keyed by `(task_id, name)`. -/
structure StageRow where
  description : String
  completed : Bool
  executionTime : Option Nat
  error : Option String
deriving DecidableEq

/-- The persistent store plus the in-memory task queue
(`task_queue.put((task_id, repo_url, title, access_token))`). -/
structure DbState where
  tasks : List (String × JobRow)
  stages : List ((String × String) × StageRow)
  queue : List (String × String × String × Option String)
deriving DecidableEq

def getTaskRow (db : DbState) (id : String) : Option JobRow :=
  (db.tasks.find? (·.1 == id)).map (·.2)

def getStageRow (db : DbState) (id name : String) : Option StageRow :=
  (db.stages.find? (·.1 == (id, name))).map (·.2)

/-- Python `created_at or now` (database.py line 351): `None` and the empty
string are both falsy. -/
def pyOrNow (c : Option String) (now : String) : String :=
  match c with
  | some s => if s = "" then now else s
  | none => now

/-- `save_documentation_task` (database.py lines 324-392).  The UPDATE branch
(lines 361-370) rewrites every column except `id` and `created_at` with the
caller's arguments; omitted keyword arguments arrive as `None` and therefore
become NULL.  The INSERT branch (lines 372-381) stores `created_at or now`. -/
def saveTaskOp (db : DbState) (now taskId repoUrl title status : String) (progress : Nat)
    (currentStage error createdAt completedAt outputUrl taskData : Option String) : DbState :=
  match getTaskRow db taskId with
  | some old =>
    { db with tasks := db.tasks.map (fun p =>
        if p.1 == taskId then
          (taskId, ⟨repoUrl, title, status, progress, currentStage, error,
                    old.createdAt, completedAt, outputUrl, taskData⟩)
        else p) }
  | none =>
    { db with tasks := db.tasks ++
        [(taskId, ⟨repoUrl, title, status, progress, currentStage, error,
                   pyOrNow createdAt now, completedAt, outputUrl, taskData⟩)] }

/-- `save_documentation_stage` (database.py lines 468-523).  The UPDATE branch
(lines 496-504) rewrites description, completed, execution_time and error;
the INSERT branch stores the same four fields. -/
def saveStageOp (db : DbState) (taskId name description : String) (completed : Bool)
    (executionTime : Option Nat) (error : Option String) : DbState :=
  if db.stages.any (·.1 == (taskId, name)) then
    { db with stages := db.stages.map (fun p =>
        if p.1 == (taskId, name) then
          ((taskId, name), ⟨description, completed, executionTime, error⟩)
        else p) }
  else
    { db with stages := db.stages ++
        [((taskId, name), ⟨description, completed, executionTime, error⟩)] }

/-- `delete_documentation_task` (database.py lines 566-601): delete all stage
rows of the task, then the task row. -/
def deleteTaskOp (db : DbState) (taskId : String) : DbState :=
  { db with
    stages := db.stages.filter (fun p => !(p.1.1 == taskId)),
    tasks := db.tasks.filter (fun p => !(p.1 == taskId)) }

/-- Modelled abstraction of `api.generate_request_id` (api.py lines 253-279):
a deterministic id derived from the repository URL via a SHA-1 digest of the
extracted `owner/repo` (hashlib and re, external libraries).  The claims rely
only on the id being a deterministic function of the submission, which any
fixed Lean function provides. -/
def requestIdOf (repoUrl title : String) : String :=
  "sha1_of_" ++ repoUrl ++ "_" ++ title

/-- The five default stages created on submission
(documentation_agent.py lines 1389-1420, identical list at lines 62-93). -/
def fiveStages : List (String × String) :=
  [("code_analysis", "Analyzing repository structure and code"),
   ("planning", "Planning documentation structure"),
   ("content_generation", "Generating documentation content"),
   ("optimization", "Optimizing and refining content"),
   ("quality_check", "Performing quality checks")]

def fiveStageNames : List String := fiveStages.map (·.1)

/-- The fresh-submission writes of `submit_job` (documentation_agent.py lines
1422-1448): upsert the task as pending/0, upsert the five stages incomplete,
enqueue.  `task_data` holds the started message (the JSON dict wrapper around
the single `message` key is elided). -/
def submitFresh (db : DbState) (now taskId repoUrl title : String)
    (accessToken : Option String) : String × DbState :=
  let db1 := saveTaskOp db now taskId repoUrl title "pending" 0 none none (some now) none none
      (some ("Documentation generation for \x27" ++ title ++ "\x27 has been started"))
  let db2 := fiveStages.foldl
      (fun d s => saveStageOp d taskId s.1 s.2 false none none) db1
  (taskId, { db2 with queue := db2.queue ++ [(taskId, repoUrl, title, accessToken)] })

/-- `DocumentationAgent.submit_job` (documentation_agent.py lines 1358-1448).
With an existing task and `force = False`, only a `failed` task is
re-submitted; any other status returns the existing id unchanged
(lines 1379-1386). -/
def submitJob (db : DbState) (now repoUrl title : String)
    (accessToken : Option String) (force : Bool) : String × DbState :=
  let taskId := requestIdOf repoUrl title
  match getTaskRow db taskId with
  | some row =>
    if !force && !(row.status == "failed") then (taskId, db)
    else submitFresh db now taskId repoUrl title accessToken
  | none => submitFresh db now taskId repoUrl title accessToken

/- ### Pipeline run model
(`worker_thread` and `DocumentationAgent.generate_documentation`,
documentation_agent.py lines 42-188 and 729-1160)

The run is modelled as a trace of the externally visible writes:
`save_documentation_task` calls, `save_documentation_stage` calls, file
writes, agent invocations and retry sleeps.  The `results` dict mutated in
place by the Python code lives in the same state so that exception handlers
observe earlier mutations, exactly as in the source. -/

/-- One `save_documentation_task` call as issued by the pipeline.  The
`task_id`, `repo_url` and `title` arguments are the same at every call site
of one run and are omitted. -/
structure TaskSave where
  status : String
  progress : Nat
  currentStage : Option String
  error : Option String
  completedAt : Option String
  outputUrl : Option String
deriving DecidableEq

/-- One `save_documentation_stage` call (the shared `task_id` omitted).
`execution_time = 1.0` (the source's fixed example value) is modelled as
`some 1`. -/
structure StageSave where
  name : String
  description : String
  completed : Bool
  executionTime : Option Nat
  error : Option String
deriving DecidableEq

/-- The write trace and mutable run state.  `nTask` counts
`save_documentation_task` calls (successful or not) to index the
environment's fallibility oracle; `nGen` counts `process_stage` calls to
index the generator oracle. -/
structure Trace where
  taskSaves : List TaskSave
  stageSaves : List StageSave
  files : List (String × String)
  genCalls : List String
  sleeps : List Nat
  results : List (String × String)
  nTask : Nat
  nGen : Nat
deriving DecidableEq

def emptyTrace : Trace := ⟨[], [], [], [], [], [], 0, 0⟩

/-- A documentation plan section as read from the parsed XML
(lines 936-953): `find("title")`, `find("description")` texts and the
`source_files/file` texts. -/
structure PlanSection where
  title : Option String
  description : Option String
  sourceFiles : List String
deriving DecidableEq

/-- A plan chapter (lines 919-934): the `id` attribute and the child texts. -/
structure PlanChapter where
  id : Option String
  title : Option String
  description : Option String
  sections : List PlanSection
deriving DecidableEq

/-- The root of the parsed `documentation_plan` XML (lines 905-919). -/
structure ParsedPlan where
  title : Option String
  description : Option String
  chapters : List PlanChapter
deriving DecidableEq

/-- The run environment: one parameter per external call site.
`fetch` is `fetch_repository_structure`'s outcome (raises when no file tree
could be fetched, line 1353); `attempt k j` is the outcome of the j-th agent
invocation of the k-th `process_stage` call; `taskSaveOk n` tells whether the
n-th `save_documentation_task` call commits or raises a database error
(`save_documentation_stage` returns `False` instead of raising, line 521,
and every call site ignores the flag, so stage saves are modelled as always
applied); `parseXml` is the composite outcome of `ElementTree.parse` with
the `lxml` recovery fallback (lines 868-898, external libraries); `now` is
the wall clock rendered as text. -/
structure Env where
  fetch : Except String (String × String)
  attempt : Nat → Nat → Except String String
  taskSaveOk : Nat → Bool
  parseXml : String → Except String ParsedPlan
  now : String

/-- Outcome of the k-th `process_stage` call under the retry policy. -/
def stageOutcome (env : Env) (k : Nat) : Except String String :=
  (pyRetry (env.attempt k)).2.2

/-- The run monad: state passing over the trace with Python exception
propagation. -/
def PM (α : Type) : Type := Trace → Trace × Except String α

def PM.pure (a : α) : PM α := fun t => (t, Except.ok a)

def PM.bind (m : PM α) (f : α → PM β) : PM β := fun t =>
  match m t with
  | (t', Except.ok a) => f a t'
  | (t', Except.error e) => (t', Except.error e)

instance : Monad PM where
  pure := PM.pure
  bind := PM.bind

/-- `raise e`. -/
def PM.throwE (e : String) : PM α := fun t => (t, Except.error e)

/-- Python `try: m except Exception as e: h e`. -/
def pmTry (m : PM α) (h : String → PM α) : PM α := fun t =>
  match m t with
  | (t', Except.ok a) => (t', Except.ok a)
  | (t', Except.error e) => h e t'

/-- Lift a fallible external call. -/
def liftExc (x : Except String α) : PM α := fun t => (t, x)

/-- `save_documentation_task`: on success the record is appended to the
trace; on a database error nothing is written and the exception propagates
(database.py line 390 re-raises).  The state is destructured so that each
step forces its predecessor exactly once. -/
def emitTaskSave (env : Env) (ts : TaskSave) : PM Unit := fun t =>
  match t with
  | ⟨tsv, ssv, fls, gcs, slp, res, nT, nG⟩ =>
    if env.taskSaveOk nT then
      (⟨tsv ++ [ts], ssv, fls, gcs, slp, res, nT + 1, nG⟩, Except.ok ())
    else
      (⟨tsv, ssv, fls, gcs, slp, res, nT + 1, nG⟩, Except.error "database error")

/-- `save_documentation_stage`: applied to the store, never raises. -/
def emitStageSave (s : StageSave) : PM Unit := fun t =>
  match t with
  | ⟨tsv, ssv, fls, gcs, slp, res, nT, nG⟩ =>
    (⟨tsv, ssv ++ [s], fls, gcs, slp, res, nT, nG⟩, Except.ok ())

/-- `open(path, "w").write(content)`. -/
def writeFile (p c : String) : PM Unit := fun t =>
  match t with
  | ⟨tsv, ssv, fls, gcs, slp, res, nT, nG⟩ =>
    (⟨tsv, ssv, fls ++ [(p, c)], gcs, slp, res, nT, nG⟩, Except.ok ())

def getResults : PM (List (String × String)) := fun t =>
  match t with
  | ⟨tsv, ssv, fls, gcs, slp, res, nT, nG⟩ =>
    (⟨tsv, ssv, fls, gcs, slp, res, nT, nG⟩, Except.ok res)

/-- `results[key] = stage_result` — in-place dict mutation. -/
def putResult (k v : String) : PM Unit := fun t =>
  match t with
  | ⟨tsv, ssv, fls, gcs, slp, res, nT, nG⟩ =>
    (⟨tsv, ssv, fls, gcs, slp, insertR res k v, nT, nG⟩, Except.ok ())

def anyTaskSave : PM Bool := fun t =>
  match t with
  | ⟨tsv, ssv, fls, gcs, slp, res, nT, nG⟩ =>
    (⟨tsv, ssv, fls, gcs, slp, res, nT, nG⟩, Except.ok (!tsv.isEmpty))

/-- The agent invocation of `process_stage` under the retry loop of lines
296-318: one `genCalls` entry per actual invocation, the backoff sleeps
recorded, and the post-retry outcome returned (re-raised on failure,
line 318 / 335). -/
def callStage (env : Env) (stage : String) : PM String := fun t =>
  match t with
  | ⟨tsv, ssv, fls, gcs, slp, res, nT, nG⟩ =>
    let r := pyRetry (env.attempt nG)
    (⟨tsv, ssv, fls, gcs ++ List.replicate r.1 stage, slp ++ r.2.1, res, nT, nG + 1⟩,
      r.2.2)

/-- `process_stage` (lines 251-335): mark the stage in progress
(lines 278-283), then invoke the agent under the retry policy.  Prompt
assembly and the mem0 bookkeeping have no externally visible effect on the
trace. -/
def processStage (env : Env) (stage : String) : PM String := do
  emitStageSave ⟨stage, "Processing " ++ usp stage, false, none, none⟩
  callStage env stage

/-- One iteration of the initial-stage loop (lines 776-821): progress
update, then try/except around `process_stage` with the per-stage handler
recording the failure and continuing. -/
def initStageStep (env : Env) (stage : String) (idx : Nat) : PM Unit := do
  emitTaskSave env ⟨"running", 20 + idx * 10, some stage, none, none, none⟩
  pmTry
    (do
      let s ← processStage env stage
      putResult stage s
      emitStageSave ⟨stage, "Completed " ++ usp stage, true, some 1, none⟩)
    (fun e => emitStageSave ⟨stage, "Error in " ++ usp stage, false, none, some e⟩)

/-- The body of the outer try of `generate_documentation` (lines 759-821):
fetch the repository context, set progress 20, run `code_analysis` and
`planning`. -/
def phaseInitial (env : Env) : PM (String × String) := do
  let ftrm ← liftExc env.fetch
  emitTaskSave env ⟨"running", 20, some "code_analysis", none, none, none⟩
  initStageStep env "code_analysis" 0
  initStageStep env "planning" 1
  PM.pure ftrm

/-- The XML entity cleaning of lines 849-853.  The subsequent CDATA rewrite
at line 856 uses `re.sub` with `re` never imported at module level, so it
raises `NameError`; that is caught by the handler at line 865, leaving the
entity replacements in effect and skipping the cleaned-XML debug write. -/
def cleanEntities (x : String) : String :=
  let x := replaceAll x "&" "&amp;"
  let x := replaceAll x "&amp;amp;" "&amp;"
  let x := replaceAll x "&amp;lt;" "&lt;"
  let x := replaceAll x "&amp;gt;" "&gt;"
  x

/-- The XML block extraction of lines 833-837: `find` both markers and slice
`planning_result[xml_start : xml_end + len("</documentation_plan>")]`;
`none` when either marker is missing or the end marker does not come after
the start. -/
def extractXml (pt : String) : Option String :=
  match findSub pt.data "<documentation_plan>".data,
        findSub pt.data "</documentation_plan>".data with
  | some i, some j =>
    if i < j then some ⟨(pt.data.drop i).take (j + 21 - i)⟩ else none
  | _, _ => none

/-- One section block of the chapter skeleton (lines 936-953). -/
def sectionBlock (s : PlanSection) : String :=
  let st := s.title.getD "Untitled Section"
  let b := "## " ++ st ++ "\n\n"
  let b := b ++ (match s.description with
    | some d => if d = "" then "" else d ++ "\n\n"
    | none => "")
  if s.sourceFiles.isEmpty then b
  else
    b ++ "### Related Source Files\n\n" ++
      String.join ((s.sourceFiles.filter (· ≠ "")).map
        (fun f => "- `" ++ f ++ "`\n")) ++ "\n"

/-- The chapter skeleton built before content generation (lines 928-953). -/
def chapterSkeleton (c : PlanChapter) : String :=
  let ct := c.title.getD "Untitled Chapter"
  let b := "# " ++ ct ++ "\n\n"
  let b := b ++ (match c.description with
    | some d => if d = "" then "" else d ++ "\n\n"
    | none => "")
  b ++ String.join (c.sections.map sectionBlock)

/-- The table-of-contents header (lines 904-916). -/
def tocHeader (now title : String) (p : ParsedPlan) : String :=
  let dt := p.title.getD title
  let b := "# " ++ dt ++ "\n\n" ++ "*Generated on: " ++ now ++ "*\n\n"
  let b := b ++ (match p.description with
    | some d => if d = "" then "" else d ++ "\n\n"
    | none => "")
  b ++ "## Table of Contents\n\n"

/-- `_compile_final_documentation_with_fallback` (lines 1215-1278). -/
def compileWithFallback (now : String) (results : List (String × String))
    (title repoUrl : Option String) : String :=
  let fc := match title with | some t => "# " ++ t ++ "\n\n" | none => ""
  let fc := fc ++ "*Generated on: " ++ now ++ "*\n\n"
  let fc := fc ++ (match repoUrl with | some r => "Repository: " ++ r ++ "\n\n" | none => "")
  if results.isEmpty then
    fc ++ "## Error\n\nNo documentation content was generated. Please try again.\n\n"
  else
    let fc := fc ++ (match lookupR results "code_analysis" with
      | some c => "## Code Analysis\n\n" ++ c ++ "\n\n"
      | none => "")
    let fc := fc ++ (match lookupR results "planning" with
      | some c => "## Documentation Plan\n\n" ++ c ++ "\n\n"
      | none => "")
    let content := (lookupR results "content_generation").getD ""
    let optimized := (lookupR results "optimization").getD ""
    let fc := fc ++
      (if optimized ≠ "" then optimized
       else if content ≠ "" then content
       else "## Documentation Content\n\nNo content was generated during the content generation phase.\n\n")
    let qc := (lookupR results "quality_check").getD ""
    let fc := fc ++ (if qc ≠ "" then "\n\n## Quality Check Notes\n\n" ++ qc else "")
    fc ++ "\n\n## Generation Status\n\n" ++
      String.join (fiveStageNames.map (fun stage =>
        "- " ++ pyTitle (usp stage) ++ ": " ++
          (if (lookupR results stage).isSome then "✅ Completed" else "❌ Failed or Skipped")
          ++ "\n"))

/-- The per-chapter loop of lines 919-1022.  The chapter's position in the
`findall` list is its loop index (Python `list.index` compares ElementTree
nodes by identity, so it returns the position).  Each iteration: extend the
table of contents, build the skeleton, update progress to `40 + i*5`, run
`process_stage("content_generation")` guarded by the per-chapter handler,
then write the chapter file. -/
def chapterLoop (env : Env) (docDir : String) :
    List PlanChapter → Nat → String → PM String
  | [], _, toc => PM.pure toc
  | c :: rest, i, toc => do
    let cid := c.id.getD "unknown"
    let ctitle := c.title.getD "Untitled Chapter"
    let toc := toc ++ "- [" ++ ctitle ++ "](chapters/" ++ cid ++ ".md)\n"
    let skel := chapterSkeleton c
    emitTaskSave env ⟨"running", 40 + i * 5, some ("content_generation_" ++ cid),
      none, none, none⟩
    let content ← pmTry
      (do
        let s ← processStage env "content_generation"
        putResult ("content_generation_" ++ cid) s
        emitStageSave ⟨"content_generation_" ++ cid,
          "Completed content generation for \x27" ++ ctitle ++ "\x27", true, some 1, none⟩
        PM.pure (if s ≠ "" then s else skel))
      (fun e => do
        emitStageSave ⟨"content_generation_" ++ cid,
          "Error in content generation for \x27" ++ ctitle ++ "\x27", false, none, some e⟩
        PM.pure skel)
    writeFile (docDir ++ "/chapters/" ++ cid ++ ".md") content
    chapterLoop env docDir rest (i + 1) toc

/-- The body of the planning-XML try of lines 831-1034: extract the XML
block, save it, clean it, parse it (raising on parse failure, lines
895 and 898), then either run the chapter fan-out and write the table of
contents, or (no markers found, lines 1029-1034) write the fallback
document. -/
def planInner (env : Env) (title repoUrl docDir mainPath planningText : String) : PM Unit := do
  match extractXml planningText with
  | some xml => do
    writeFile (docDir ++ "/index.xml") xml
    let cleaned := cleanEntities xml
    match env.parseXml cleaned with
    | Except.error e => PM.throwE e
    | Except.ok plan => do
      let toc ← chapterLoop env docDir plan.chapters 0 (tocHeader env.now title plan)
      writeFile mainPath toc
  | none => do
    let rs ← getResults
    writeFile mainPath (compileWithFallback env.now rs (some title) (some repoUrl))

/-- The planning-processing block of lines 826-1046: with a planning result,
run `planInner` guarded by the handler of lines 1035-1040 (fallback compile);
without one (lines 1041-1046), write the fallback document directly. -/
def planPhase (env : Env) (title repoUrl docDir mainPath : String) : PM Unit := do
  let rs ← getResults
  match lookupR rs "planning" with
  | some planningText =>
    pmTry (planInner env title repoUrl docDir mainPath planningText)
      (fun _ => do
        let rs' ← getResults
        writeFile mainPath (compileWithFallback env.now rs' (some title) (some repoUrl)))
  | none => do
    let rs' ← getResults
    writeFile mainPath (compileWithFallback env.now rs' (some title) (some repoUrl))

/-- The optimization / quality-check block of lines 1049-1145.  After both
stages succeed, line 1123 calls `self._compile_final_documentation`, a
method that is defined nowhere in the module (only
`_compile_final_documentation_with_fallback` exists), so the attribute
access raises `AttributeError` before any file write; the handler of lines
1129-1145 then records both stages as failed. -/
def optQcPhase (env : Env) : PM Unit :=
  pmTry
    (do
      emitTaskSave env ⟨"running", 70, some "optimization", none, none, none⟩
      let s ← processStage env "optimization"
      putResult "optimization" s
      emitStageSave ⟨"optimization", "Completed optimization", true, some 1, none⟩
      emitTaskSave env ⟨"running", 85, some "quality_check", none, none, none⟩
      let s2 ← processStage env "quality_check"
      putResult "quality_check" s2
      emitStageSave ⟨"quality_check", "Completed quality check", true, some 1, none⟩
      PM.throwE "AttributeError: \x27DocumentationAgent\x27 object has no attribute \x27_compile_final_documentation\x27")
    (fun e => do
      emitStageSave ⟨"optimization", "Error in optimization", false, none, some e⟩
      emitStageSave ⟨"quality_check", "Error in quality check", false, none, some e⟩)

/-- `generate_documentation` (lines 729-1160).  The outer try's handler
(lines 822-824) logs and re-raises.  The final task save of lines 1148-1157
marks the job completed and returns the output path; the partial-document
block of lines 1163-1213 sits after this unconditional `return` and is
unreachable, so it is not part of the run. -/
def generateDocumentation (env : Env) (repoUrl title requestId : String) : PM String := do
  let docDir := "output/documentation/" ++ safeTitle title ++ "_" ++ requestId
  let mainPath := docDir ++ "/index.md"
  let _ ← pmTry (phaseInitial env) (fun e => PM.throwE e)
  planPhase env title repoUrl docDir mainPath
  optQcPhase env
  emitTaskSave env ⟨"completed", 100, none, none, some env.now,
    some ("/api/v2/documentation/file/" ++ safeTitle title ++ "_" ++ requestId ++ "/index.md")⟩
  PM.pure mainPath

/-- The recreation writes of worker_thread lines 59-115 when the dequeued
task has no database record. -/
def workerRecreate (env : Env) : PM Unit := do
  emitTaskSave env ⟨"pending", 0, none, none, none, none⟩
  (fiveStages.map (fun s => emitStageSave ⟨s.1, s.2, false, none, none⟩)).foldl
    (fun a b => do a; b) (PM.pure ())

/-- The missing-record check of worker_thread lines 56-115: the dequeued
task has a database record exactly when some task save for it committed
earlier in the trace; if not, the default record is recreated. -/
def workerCheck (env : Env) : PM Unit := do
  let found ← anyTaskSave
  if found then PM.pure () else workerRecreate env

/-- One worker iteration on a dequeued task (worker_thread lines 47-188).
The outer handler (lines 184-185) only logs. -/
def runJob (env : Env) (repoUrl title requestId : String) : PM Unit :=
  pmTry
    (do
      workerCheck env
      emitTaskSave env ⟨"running", 10, some "fetching_repository", none, none, none⟩
      pmTry
        (do
          let out ← generateDocumentation env repoUrl title requestId
          if out ≠ "" then
            emitTaskSave env ⟨"completed", 100, none, none, some env.now,
              some ("/api/v2/documentation/file/" ++ pyBasename out)⟩
          else
            emitTaskSave env ⟨"failed", 0, none, some "Failed to generate documentation",
              some env.now, none⟩)
        (fun e => emitTaskSave env ⟨"failed", 0, none, some e, some env.now, none⟩))
    (fun _ => PM.pure ())

/-- The submission writes of `submit_job` as seen in the trace (task pending
with progress 0, the five stages incomplete). -/
def submitWrites (env : Env) : PM Unit := do
  emitTaskSave env ⟨"pending", 0, none, none, none, none⟩
  (fiveStages.map (fun s => emitStageSave ⟨s.1, s.2, false, none, none⟩)).foldl
    (fun a b => do a; b) (PM.pure ())

/-- A full run: submission followed by the worker processing the job.  If the
submission's task save raises, `submit_job` aborts and nothing is enqueued,
so the worker never runs. -/
def runSubmittedJob (env : Env) (repoUrl title : String) : Trace :=
  ((do
      submitWrites env
      runJob env repoUrl title (requestIdOf repoUrl title) : PM Unit) emptyTrace).1

/- ### Observables of a run -/

/-- The job row's field values after the run are those of the last committed
task save. -/
def finalTask (t : Trace) : Option TaskSave := t.taskSaves.getLast?

def finalStatus (t : Trace) : Option String := (finalTask t).map (·.status)

/-- The stage row `(job, n)` after the run: the last committed stage save
with that name (upsert semantics). -/
def finalStageRow (t : Trace) (n : String) : Option StageSave :=
  t.stageSaves.reverse.find? (·.name == n)

def stageCompleted (t : Trace) (n : String) : Option Bool :=
  (finalStageRow t n).map (·.completed)

/-- The content a path holds after the run: the last write wins. -/
def lastWrite (t : Trace) (p : String) : Option String :=
  (t.files.reverse.find? (·.1 == p)).map (·.2)

/-- The progress values of the task saves that carried status `running`, in
write order. -/
def runningOf (l : List TaskSave) : List Nat :=
  (l.filter (·.status == "running")).map (·.progress)

/-- Adjacent-pairs non-decreasing check. -/
def nondec : List Nat → Bool
  | [] => true
  | [_] => true
  | a :: b :: r => decide (a ≤ b) && nondec (b :: r)

/-- Number of agent invocations recorded for a stage name. -/
def genCount (t : Trace) (stage : String) : Nat :=
  (t.genCalls.filter (· == stage)).length

/-- The `/api/v2/documentation/generate` endpoint's force handling
(api.py lines 703-735): `get_documentation_job` reads the task table
(api.py line 1690); with `force` and an existing job the task and its stages
are deleted (line 721) before `submit_job` runs; an existing
pending/running job without `force` returns early without submitting. -/
def endpointGenerate (db : DbState) (now repoUrl title : String) (force : Bool) :
    String × DbState :=
  let requestId := requestIdOf repoUrl title
  match getTaskRow db requestId, force with
  | some _, true =>
    let db1 := deleteTaskOp db requestId
    submitJob db1 now repoUrl title none true
  | some j, false =>
    if j.status == "pending" || j.status == "running" then (requestId, db)
    else submitJob db now repoUrl title none false
  | none, f => submitJob db now repoUrl title none f


/- monotone-progress framework -/

def Mono (lo hi : Nat) (l : List Nat) : Prop :=
  nondec l = true ∧ ∀ x ∈ l, lo ≤ x ∧ x ≤ hi

def TB (lo hi : Nat) (m : PM α) : Prop :=
  ∀ t, ∃ Δ, ((m t).1).taskSaves = t.taskSaves ++ Δ ∧ Mono lo hi (runningOf Δ)

/- status-invariant framework: every task save of a run has a status other
than "partial" -/

def NoPart (m : PM α) : Prop :=
  ∀ t, ∃ Δ, ((m t).1).taskSaves = t.taskSaves ++ Δ ∧ ∀ x ∈ Δ, x.status ≠ "partial"

/- totality framework: no exception escapes -/

def Tot (m : PM α) : Prop := ∀ t, ∃ a t', m t = (t', Except.ok a)

/- file-write frame: the optimization / quality-check phase never writes a
file, whatever the outcomes -/

def FilesFrame (m : PM α) : Prop := ∀ t, ((m t).1).files = t.files

def noPlanRun (env : Env) : Prop :=
  (∃ e, stageOutcome env 1 = Except.error e) ∨
  (∃ txt, stageOutcome env 1 = Except.ok txt ∧ extractXml txt = none) ∨
  (∃ txt xml pe, stageOutcome env 1 = Except.ok txt ∧ extractXml txt = some xml ∧
    env.parseXml (cleanEntities xml) = Except.error pe)

/-- Stage-save frame: every stage row the computation writes satisfies `P`. -/
def SFrame (P : StageSave → Prop) (m : PM α) : Prop :=
  ∀ t, ∃ Δ, ((m t).1).stageSaves = t.stageSaves ++ Δ ∧ ∀ s ∈ Δ, P s

/-- The only stage rows the planning phase can write: the in-progress
`content_generation` row (never completed) and per-chapter
`content_generation_<id>` rows. -/
def cgPred (s : StageSave) : Prop :=
  (s.name = "content_generation" ∧ s.completed = false) ∨
  ∃ cid, s.name = "content_generation_" ++ cid

/-- All-success generator environment: fetch succeeds, every agent call
returns "x", every task save commits, XML parsing is never reached because
"x" holds no plan tags. -/
def env1 : Env :=
  { fetch := Except.ok ("tree", "readme"),
    attempt := fun _ _ => Except.ok "x",
    taskSaveOk := fun _ => true,
    parseXml := fun _ => Except.error "unused",
    now := "T" }

def tr1 : Trace := runSubmittedJob env1 "https://github.com/acme/foo" "Foo Docs"

def chap (n : String) : PlanChapter := ⟨some n, none, none, []⟩

/-- Environment whose planning stage yields a parsed plan of 8 chapters. -/
def env7 : Env :=
  { fetch := Except.ok ("tree", "readme"),
    attempt := fun k _ => if k = 1
      then Except.ok "<documentation_plan></documentation_plan>"
      else Except.ok "x",
    taskSaveOk := fun _ => true,
    parseXml := fun _ => Except.ok ⟨none, none,
      [chap "c1", chap "c2", chap "c3", chap "c4",
       chap "c5", chap "c6", chap "c7", chap "c8"]⟩,
    now := "T" }

def tr7 : Trace := runSubmittedJob env7 "https://github.com/acme/foo" "Foo Docs"

/-- Environment whose fourth `save_documentation_task` call raises (the
progress update at the start of the planning loop iteration), after the
code-analysis stage has stored its result. -/
def env2 : Env :=
  { fetch := Except.ok ("tree", "readme"),
    attempt := fun _ _ => Except.ok "x",
    taskSaveOk := fun n => n ≠ 4,
    parseXml := fun _ => Except.error "unused",
    now := "T" }

def tr2 : Trace := runSubmittedJob env2 "https://github.com/acme/foo" "Foo Docs"

/-- Environment whose repository fetch fails. -/
def env2b : Env :=
  { fetch := Except.error "Could not fetch repository structure. Repository might not exist, be empty or private.",
    attempt := fun _ _ => Except.ok "x",
    taskSaveOk := fun _ => true,
    parseXml := fun _ => Except.error "unused",
    now := "T" }

def tr2b : Trace := runSubmittedJob env2b "https://github.com/acme/foo" "Foo Docs"

/-- Environment whose planning stage raises a non-transient error while all
other stages succeed. -/
def env3 : Env :=
  { fetch := Except.ok ("tree", "readme"),
    attempt := fun k _ => if k = 1 then Except.error "planning boom" else Except.ok "x",
    taskSaveOk := fun _ => true,
    parseXml := fun _ => Except.error "unused",
    now := "T" }

def tr3 : Trace := runSubmittedJob env3 "https://github.com/acme/foo" "Foo Docs"

/-- Environment whose generator always raises the recognized transient
"context too large" error. -/
def envR : Env :=
  { fetch := Except.ok ("tree", "readme"),
    attempt := fun k _ => if k = 0 then Except.error "Too many tokens" else Except.ok "x",
    taskSaveOk := fun _ => true,
    parseXml := fun _ => Except.error "unused",
    now := "T" }

def trR : Trace := runSubmittedJob envR "u" "t"

/-- A stored job row whose `current_stage` and `task_data` are set, for the
upsert frame check. -/
def c8db : DbState :=
  ⟨[("t", ⟨"r", "T", "running", 30, some "planning", some "boom", "C", none, none, some "d"⟩)],
    [], []⟩

/-- A store holding a prior running job and one of its stage rows, for the
force-resubmission witness. -/
def c4db : DbState :=
  ⟨[("sha1_of_u_t", ⟨"u", "t", "running", 30, some "planning", none, "C", none, none, none⟩)],
    [(("sha1_of_u_t", "planning"), ⟨"old", true, some 1, some "z"⟩)], [("q", "u", "t", none)]⟩

/-- A store holding a failed job under the derived id of `("u", "t")`. -/
def c10db : DbState :=
  ⟨[("sha1_of_u_t", ⟨"u", "t", "failed", 0, none, some "boom", "C", none, none, none⟩)],
    [(("sha1_of_u_t", "planning"), ⟨"old", true, some 1, some "z"⟩)], []⟩

end DW

namespace DW

lemma runningOf_append (a b : List TaskSave) :
    runningOf (a ++ b) = runningOf a ++ runningOf b := by
  simp [runningOf]

lemma nondec_append {l₂ : List Nat} {m : Nat} :
    ∀ {l₁ : List Nat}, nondec l₁ = true → nondec l₂ = true →
      (∀ x ∈ l₁, x ≤ m) → (∀ x ∈ l₂, m ≤ x) → nondec (l₁ ++ l₂) = true
  | [], _, h₂, _, _ => by simpa
  | [a], _, h₂, hb₁, hb₂ => by
    cases l₂ with
    | nil => simp [nondec]
    | cons b r =>
      have hab : a ≤ b := le_trans (hb₁ a (by simp)) (hb₂ b (by simp))
      simp only [List.cons_append, List.nil_append, nondec, Bool.and_eq_true,
        decide_eq_true_eq]
      exact ⟨hab, h₂⟩
  | a :: b :: r, h₁, h₂, hb₁, hb₂ => by
    simp only [nondec, Bool.and_eq_true, decide_eq_true_eq] at h₁
    have ih := nondec_append h₁.2 h₂ (fun x hx => hb₁ x (List.mem_cons_of_mem a hx)) hb₂
    simp only [List.cons_append, nondec, Bool.and_eq_true, decide_eq_true_eq]
    exact ⟨h₁.1, by simpa using ih⟩

lemma Mono.append {lo mid hi : Nat} {l₁ l₂ : List Nat} (h₁ : Mono lo mid l₁)
    (h₂ : Mono mid hi l₂) (hlm : lo ≤ mid) (hmh : mid ≤ hi) :
    Mono lo hi (l₁ ++ l₂) := by
  obtain ⟨n₁, b₁⟩ := h₁
  obtain ⟨n₂, b₂⟩ := h₂
  refine ⟨nondec_append n₁ n₂ (fun x hx => (b₁ x hx).2) (fun x hx => (b₂ x hx).1), ?_⟩
  intro x hx
  rcases List.mem_append.mp hx with h | h
  · exact ⟨(b₁ x h).1, le_trans (b₁ x h).2 hmh⟩
  · exact ⟨le_trans hlm (b₂ x h).1, (b₂ x h).2⟩

lemma Mono.relaxMono {lo hi lo' hi' : Nat} {l : List Nat} (h : Mono lo hi l)
    (h₁ : lo' ≤ lo) (h₂ : hi ≤ hi') : Mono lo' hi' l :=
  ⟨h.1, fun x hx => ⟨le_trans h₁ (h.2 x hx).1, le_trans (h.2 x hx).2 h₂⟩⟩

lemma Mono.nil (lo hi : Nat) : Mono lo hi [] := ⟨rfl, by simp⟩

lemma TB.relaxTB {lo hi lo' hi' : Nat} {m : PM α} (h : TB lo hi m)
    (h₁ : lo' ≤ lo) (h₂ : hi ≤ hi') : TB lo' hi' m := by
  intro t
  obtain ⟨Δ, hΔ, hM⟩ := h t
  exact ⟨Δ, hΔ, hM.relaxMono h₁ h₂⟩

lemma TB_bind (lo mid hi : Nat) {m : PM α} {f : α → PM β} (hm : TB lo mid m)
    (hf : ∀ a, TB mid hi (f a)) (hlm : lo ≤ mid) (hmh : mid ≤ hi) :
    TB lo hi (m >>= f) := by
  intro t
  obtain ⟨Δ₁, hΔ₁, hM₁⟩ := hm t
  show ∃ Δ, ((PM.bind m f t).1).taskSaves = _ ∧ _
  rw [PM.bind]
  cases hmt : m t with
  | mk t₁ r =>
    rw [hmt] at hΔ₁
    cases r with
    | ok a =>
      obtain ⟨Δ₂, hΔ₂, hM₂⟩ := hf a t₁
      have hΔ₁' : t₁.taskSaves = t.taskSaves ++ Δ₁ := hΔ₁
      refine ⟨Δ₁ ++ Δ₂, ?_, ?_⟩
      · rw [hΔ₂, hΔ₁', List.append_assoc]
      · rw [runningOf_append]
        exact hM₁.append hM₂ hlm hmh
    | error e =>
      exact ⟨Δ₁, hΔ₁, hM₁.relaxMono le_rfl hmh⟩

lemma TB_pmTry (lo mid hi : Nat) {m : PM α} {h : String → PM α} (hm : TB lo mid m)
    (hh : ∀ e, TB mid hi (h e)) (hlm : lo ≤ mid) (hmh : mid ≤ hi) :
    TB lo hi (pmTry m h) := by
  intro t
  obtain ⟨Δ₁, hΔ₁, hM₁⟩ := hm t
  rw [pmTry]
  cases hmt : m t with
  | mk t₁ r =>
    rw [hmt] at hΔ₁
    cases r with
    | ok a => exact ⟨Δ₁, hΔ₁, hM₁.relaxMono le_rfl hmh⟩
    | error e =>
      obtain ⟨Δ₂, hΔ₂, hM₂⟩ := hh e t₁
      have hΔ₁' : t₁.taskSaves = t.taskSaves ++ Δ₁ := hΔ₁
      refine ⟨Δ₁ ++ Δ₂, ?_, ?_⟩
      · rw [hΔ₂, hΔ₁', List.append_assoc]
      · rw [runningOf_append]
        exact hM₁.append hM₂ hlm hmh

lemma TB_of_frame {m : PM α} (hf : ∀ t, ((m t).1).taskSaves = t.taskSaves)
    (lo hi : Nat) : TB lo hi m := by
  intro t
  exact ⟨[], by simpa using hf t, by simp [runningOf, nondec, Mono]⟩

lemma TB_pure (a : α) (lo hi : Nat) : TB lo hi (PM.pure a) :=
  TB_of_frame (fun t => rfl) lo hi

lemma TB_pure' (a : α) (lo hi : Nat) : TB lo hi (pure a : PM α) :=
  TB_of_frame (fun t => rfl) lo hi

lemma TB_throwE (e : String) (lo hi : Nat) : TB lo hi (PM.throwE e : PM α) :=
  TB_of_frame (fun t => rfl) lo hi

lemma TB_liftExc (x : Except String α) (lo hi : Nat) : TB lo hi (liftExc x) :=
  TB_of_frame (fun t => rfl) lo hi

lemma TB_emitStageSave (s : StageSave) (lo hi : Nat) : TB lo hi (emitStageSave s) :=
  TB_of_frame (fun u => by cases u; rfl) lo hi

lemma TB_writeFile (p c : String) (lo hi : Nat) : TB lo hi (writeFile p c) :=
  TB_of_frame (fun u => by cases u; rfl) lo hi

lemma TB_putResult (k v : String) (lo hi : Nat) : TB lo hi (putResult k v) :=
  TB_of_frame (fun u => by cases u; rfl) lo hi

lemma TB_getResults (lo hi : Nat) : TB lo hi getResults :=
  TB_of_frame (fun u => by cases u; rfl) lo hi

lemma TB_anyTaskSave (lo hi : Nat) : TB lo hi anyTaskSave :=
  TB_of_frame (fun u => by cases u; rfl) lo hi

lemma TB_callStage (env : Env) (stage : String) (lo hi : Nat) :
    TB lo hi (callStage env stage) :=
  TB_of_frame (fun u => by cases u; rfl) lo hi

lemma TB_emitTaskSave_running (env : Env) (p : Nat) (cs er ca ou : Option String)
    (lo hi : Nat) (h₁ : lo ≤ p) (h₂ : p ≤ hi) :
    TB lo hi (emitTaskSave env ⟨"running", p, cs, er, ca, ou⟩) := by
  intro t
  cases t with
  | mk tsv ssv fls gcs slp res nT nG =>
    rw [emitTaskSave]
    by_cases h : env.taskSaveOk nT
    · rw [if_pos h]
      exact ⟨_, rfl, by simp [runningOf, nondec, Mono, h₁, h₂]⟩
    · rw [if_neg h]
      exact ⟨[], by simp, by simp [runningOf, nondec, Mono]⟩

lemma TB_emitTaskSave_other (env : Env) (st : String) (p : Nat)
    (cs er ca ou : Option String) (hst : (st == "running") = false) (lo hi : Nat) :
    TB lo hi (emitTaskSave env ⟨st, p, cs, er, ca, ou⟩) := by
  intro t
  cases t with
  | mk tsv ssv fls gcs slp res nT nG =>
    rw [emitTaskSave]
    by_cases h : env.taskSaveOk nT
    · rw [if_pos h]
      exact ⟨_, rfl, by simp [runningOf, nondec, Mono, hst]⟩
    · rw [if_neg h]
      exact ⟨[], by simp, by simp [runningOf, nondec, Mono]⟩

lemma TB_processStage (env : Env) (stage : String) (lo hi : Nat) (h : lo ≤ hi) :
    TB lo hi (processStage env stage) := by
  rw [processStage]
  exact TB_bind lo lo hi (TB_emitStageSave _ lo lo) (fun _ => TB_callStage env stage lo hi) le_rfl h

lemma TB_initStageStep (env : Env) (stage : String) (idx : Nat) :
    TB (20 + idx * 10) (20 + idx * 10) (initStageStep env stage idx) := by
  rw [initStageStep]
  refine TB_bind _ _ _ (TB_emitTaskSave_running env _ _ _ _ _ _ _ le_rfl le_rfl)
    (fun _ => ?_) le_rfl le_rfl
  refine TB_pmTry _ _ _ ?_ (fun e => TB_emitStageSave _ _ _) le_rfl le_rfl
  refine TB_bind _ _ _ (TB_processStage env stage _ _ le_rfl) (fun s => ?_) le_rfl le_rfl
  exact TB_bind _ _ _ (TB_putResult _ _ _ _) (fun _ => TB_emitStageSave _ _ _) le_rfl le_rfl

lemma TB_phaseInitial (env : Env) : TB 20 30 (phaseInitial env) := by
  rw [phaseInitial]
  refine TB_bind 20 20 30 (TB_liftExc _ 20 20) (fun ftrm => ?_) le_rfl (by norm_num)
  refine TB_bind 20 20 30 (TB_emitTaskSave_running env _ _ _ _ _ _ _ le_rfl le_rfl)
    (fun _ => ?_) le_rfl (by norm_num)
  refine TB_bind 20 20 30 (TB_initStageStep env "code_analysis" 0) (fun _ => ?_) le_rfl (by norm_num)
  refine TB_bind 20 30 30 ((TB_initStageStep env "planning" 1).relaxTB (by norm_num) le_rfl)
    (fun _ => TB_pure _ _ _) (by norm_num) le_rfl

lemma TB_chapterLoop (env : Env) (docDir : String) :
    ∀ (cs : List PlanChapter) (i : Nat), i + cs.length ≤ 7 → ∀ toc,
      TB (min (40 + i * 5) 70) 70 (chapterLoop env docDir cs i toc) := by
  intro cs
  induction cs with
  | nil =>
    intro i _ toc
    rw [chapterLoop]
    exact TB_pure _ _ _
  | cons ch rest ih =>
    intro i hlen toc
    have hi6 : i ≤ 6 := by simp [List.length_cons] at hlen; omega
    have hlo : min (40 + i * 5) 70 = 40 + i * 5 := by omega
    rw [chapterLoop, hlo]
    refine TB_bind (40 + i * 5) (40 + i * 5) 70
      (TB_emitTaskSave_running env _ _ _ _ _ _ _ le_rfl le_rfl)
      (fun _ => ?_) le_rfl (by omega)
    refine TB_bind (40 + i * 5) (40 + i * 5) 70 ?_ (fun content => ?_)
      le_rfl (by omega)
    · refine TB_pmTry _ _ _ ?_ (fun e => ?_) le_rfl le_rfl
      · refine TB_bind _ _ _ (TB_processStage env _ _ _ le_rfl) (fun s => ?_) le_rfl le_rfl
        refine TB_bind _ _ _ (TB_putResult _ _ _ _) (fun _ => ?_) le_rfl le_rfl
        exact TB_bind _ _ _ (TB_emitStageSave _ _ _) (fun _ => TB_pure _ _ _) le_rfl le_rfl
      · exact TB_bind _ _ _ (TB_emitStageSave _ _ _) (fun _ => TB_pure _ _ _) le_rfl le_rfl
    · refine TB_bind (40 + i * 5) (min (40 + (i + 1) * 5) 70) 70
        (TB_writeFile _ _ _ _) (fun _ => ?_) ?_ ?_
      · exact ih (i + 1) (by simp [List.length_cons] at hlen; omega) _
      · omega
      · omega

lemma TB_planInner (env : Env) (title repoUrl docDir mainPath planningText : String)
    (hCh : ∀ s p, env.parseXml s = Except.ok p → p.chapters.length ≤ 7) :
    TB 40 70 (planInner env title repoUrl docDir mainPath planningText) := by
  rw [planInner]
  split
  · rename_i xml _
    refine TB_bind 40 40 70 (TB_writeFile _ _ 40 40) (fun _ => ?_) le_rfl (by norm_num)
    dsimp only
    split
    · exact TB_throwE _ _ _
    · rename_i plan hp
      refine TB_bind 40 70 70 ?_
        (fun _ => TB_writeFile _ _ _ _) (by norm_num) le_rfl
      have := TB_chapterLoop env docDir plan.chapters 0 (by simpa using hCh _ plan hp)
        (tocHeader env.now title plan)
      simpa using this
  · exact TB_bind 40 40 70 (TB_getResults 40 40) (fun rs => TB_writeFile _ _ 40 70) le_rfl (by norm_num)

lemma TB_planPhase (env : Env) (title repoUrl docDir mainPath : String)
    (hCh : ∀ s p, env.parseXml s = Except.ok p → p.chapters.length ≤ 7) :
    TB 30 70 (planPhase env title repoUrl docDir mainPath) := by
  rw [planPhase]
  refine TB_bind 30 30 70 (TB_getResults 30 30) (fun rs => ?_) le_rfl (by norm_num)
  split
  · exact TB_pmTry 30 70 70 ((TB_planInner env _ _ _ _ _ hCh).relaxTB (by norm_num) le_rfl)
      (fun e => TB_bind 70 70 70 (TB_getResults 70 70)
        (fun rs' => TB_writeFile _ _ 70 70) le_rfl le_rfl)
      (by norm_num) le_rfl
  · exact TB_bind 30 30 70 (TB_getResults 30 30) (fun rs' => TB_writeFile _ _ 30 70) le_rfl (by norm_num)

lemma TB_optQcPhase (env : Env) : TB 70 85 (optQcPhase env) := by
  rw [optQcPhase]
  refine TB_pmTry 70 85 85 ?_
    (fun e => TB_bind 85 85 85 (TB_emitStageSave _ 85 85)
      (fun _ => TB_emitStageSave _ 85 85) le_rfl le_rfl)
    (by norm_num) le_rfl
  refine TB_bind 70 70 85 (TB_emitTaskSave_running env _ _ _ _ _ 70 70 le_rfl le_rfl)
    (fun _ => ?_) le_rfl (by norm_num)
  refine TB_bind 70 70 85 (TB_processStage env _ 70 70 le_rfl) (fun s => ?_) le_rfl (by norm_num)
  refine TB_bind 70 70 85 (TB_putResult _ _ 70 70) (fun _ => ?_) le_rfl (by norm_num)
  refine TB_bind 70 70 85 (TB_emitStageSave _ 70 70) (fun _ => ?_) le_rfl (by norm_num)
  refine TB_bind 70 85 85 (TB_emitTaskSave_running env _ _ _ _ _ 70 85 (by norm_num) le_rfl)
    (fun _ => ?_) (by norm_num) le_rfl
  refine TB_bind 85 85 85 (TB_processStage env _ 85 85 le_rfl) (fun s2 => ?_) le_rfl le_rfl
  refine TB_bind 85 85 85 (TB_putResult _ _ 85 85) (fun _ => ?_) le_rfl le_rfl
  exact TB_bind 85 85 85 (TB_emitStageSave _ 85 85) (fun _ => TB_throwE _ _ _) le_rfl le_rfl

lemma TB_generateDocumentation (env : Env) (repoUrl title requestId : String)
    (hCh : ∀ s p, env.parseXml s = Except.ok p → p.chapters.length ≤ 7) :
    TB 20 99 (generateDocumentation env repoUrl title requestId) := by
  rw [generateDocumentation]
  refine TB_bind 20 30 99
    (TB_pmTry 20 30 30 (TB_phaseInitial env) (fun e => TB_throwE _ 30 30) (by norm_num) le_rfl)
    (fun _ => ?_) (by norm_num) (by norm_num)
  refine TB_bind 30 70 99 (TB_planPhase env _ _ _ _ hCh) (fun _ => ?_) (by norm_num) (by norm_num)
  refine TB_bind 70 85 99 (TB_optQcPhase env) (fun _ => ?_) (by norm_num) (by norm_num)
  exact TB_bind 85 99 99 (TB_emitTaskSave_other env "completed" _ _ _ _ _ (by decide) 85 99)
    (fun _ => TB_pure _ 99 99) (by norm_num) le_rfl

lemma TB_workerRecreate (env : Env) (lo hi : Nat) (h : lo ≤ hi) :
    TB lo hi (workerRecreate env) := by
  rw [workerRecreate]
  refine TB_bind lo lo hi (TB_emitTaskSave_other env "pending" _ _ _ _ _ (by decide) lo lo)
    (fun _ => TB_of_frame (fun u => by cases u; rfl) lo hi) le_rfl h

lemma TB_submitWrites (env : Env) (lo hi : Nat) (h : lo ≤ hi) :
    TB lo hi (submitWrites env) := by
  rw [submitWrites]
  refine TB_bind lo lo hi (TB_emitTaskSave_other env "pending" _ _ _ _ _ (by decide) lo lo)
    (fun _ => TB_of_frame (fun u => by cases u; rfl) lo hi) le_rfl h

lemma TB_workerCheck (env : Env) (lo hi : Nat) (h : lo ≤ hi) :
    TB lo hi (workerCheck env) := by
  rw [workerCheck]
  refine TB_bind lo lo hi (TB_anyTaskSave lo lo) (fun found => ?_) le_rfl h
  cases found
  · simpa using TB_workerRecreate env lo hi h
  · simpa using TB_pure () lo hi

lemma TB_runJob (env : Env) (repoUrl title requestId : String)
    (hCh : ∀ s p, env.parseXml s = Except.ok p → p.chapters.length ≤ 7) :
    TB 10 100 (runJob env repoUrl title requestId) := by
  rw [runJob]
  refine TB_pmTry 10 100 100 ?_ (fun e => TB_pure _ 100 100)
    (by norm_num) le_rfl
  refine TB_bind 10 10 100 (TB_workerCheck env 10 10 le_rfl) (fun _ => ?_) le_rfl (by norm_num)
  refine TB_bind 10 10 100 (TB_emitTaskSave_running env _ _ _ _ _ 10 10 le_rfl le_rfl)
    (fun _ => ?_) le_rfl (by norm_num)
  refine TB_pmTry 10 99 100 ?_
    (fun e => TB_emitTaskSave_other env "failed" _ _ _ _ _ (by decide) 99 100)
    (by norm_num) (by norm_num)
  refine TB_bind 10 99 99 ((TB_generateDocumentation env _ _ _ hCh).relaxTB (by norm_num) le_rfl)
    (fun out => ?_) (by norm_num) le_rfl
  split
  · exact TB_emitTaskSave_other env "completed" _ _ _ _ _ (by decide) 99 99
  · exact TB_emitTaskSave_other env "failed" _ _ _ _ _ (by decide) 99 99

lemma nondec_run (env : Env) (repoUrl title : String)
    (hCh : ∀ s p, env.parseXml s = Except.ok p → p.chapters.length ≤ 7) :
    nondec (runningOf (runSubmittedJob env repoUrl title).taskSaves) = true := by
  rw [runSubmittedJob]
  have hTB : TB 10 100 (submitWrites env >>= fun _ =>
      runJob env repoUrl title (requestIdOf repoUrl title)) :=
    TB_bind 10 10 100 (TB_submitWrites env 10 10 le_rfl)
      (fun _ => TB_runJob env repoUrl title _ hCh) le_rfl (by norm_num)
  obtain ⟨Δ, hΔ, hM⟩ := hTB emptyTrace
  show nondec (runningOf (((submitWrites env >>= fun _ =>
      runJob env repoUrl title (requestIdOf repoUrl title)) emptyTrace).1).taskSaves) = true
  rw [hΔ]
  simpa [emptyTrace] using hM.1

lemma NoPart_bind {m : PM α} {f : α → PM β} (hm : NoPart m)
    (hf : ∀ a, NoPart (f a)) : NoPart (m >>= f) := by
  intro t
  obtain ⟨Δ₁, hΔ₁, hP₁⟩ := hm t
  show ∃ Δ, ((PM.bind m f t).1).taskSaves = _ ∧ _
  rw [PM.bind]
  cases hmt : m t with
  | mk t₁ r =>
    rw [hmt] at hΔ₁
    cases r with
    | ok a =>
      obtain ⟨Δ₂, hΔ₂, hP₂⟩ := hf a t₁
      have hΔ₁' : t₁.taskSaves = t.taskSaves ++ Δ₁ := hΔ₁
      refine ⟨Δ₁ ++ Δ₂, by rw [hΔ₂, hΔ₁', List.append_assoc], ?_⟩
      intro x hx
      rcases List.mem_append.mp hx with h | h
      · exact hP₁ x h
      · exact hP₂ x h
    | error e => exact ⟨Δ₁, hΔ₁, hP₁⟩

lemma NoPart_pmTry {m : PM α} {h : String → PM α} (hm : NoPart m)
    (hh : ∀ e, NoPart (h e)) : NoPart (pmTry m h) := by
  intro t
  obtain ⟨Δ₁, hΔ₁, hP₁⟩ := hm t
  rw [pmTry]
  cases hmt : m t with
  | mk t₁ r =>
    rw [hmt] at hΔ₁
    cases r with
    | ok a => exact ⟨Δ₁, hΔ₁, hP₁⟩
    | error e =>
      obtain ⟨Δ₂, hΔ₂, hP₂⟩ := hh e t₁
      have hΔ₁' : t₁.taskSaves = t.taskSaves ++ Δ₁ := hΔ₁
      refine ⟨Δ₁ ++ Δ₂, by rw [hΔ₂, hΔ₁', List.append_assoc], ?_⟩
      intro x hx
      rcases List.mem_append.mp hx with h | h
      · exact hP₁ x h
      · exact hP₂ x h

lemma NoPart_of_frame {m : PM α} (hf : ∀ t, ((m t).1).taskSaves = t.taskSaves) :
    NoPart m := fun t => ⟨[], by simpa using hf t, by simp⟩

lemma NoPart_emit (env : Env) (ts : TaskSave) (h : ts.status ≠ "partial") :
    NoPart (emitTaskSave env ts) := by
  intro t
  cases t with
  | mk tsv ssv fls gcs slp res nT nG =>
    rw [emitTaskSave]
    by_cases hs : env.taskSaveOk nT
    · rw [if_pos hs]
      exact ⟨[ts], rfl, by simpa⟩
    · rw [if_neg hs]
      exact ⟨[], by simp, by simp⟩

lemma NoPart_processStage (env : Env) (stage : String) : NoPart (processStage env stage) := by
  rw [processStage]
  exact NoPart_bind (NoPart_of_frame (fun u => by cases u; rfl))
    (fun _ => NoPart_of_frame (fun u => by cases u; rfl))

lemma NoPart_initStageStep (env : Env) (stage : String) (idx : Nat) :
    NoPart (initStageStep env stage idx) := by
  rw [initStageStep]
  refine NoPart_bind (NoPart_emit env _ (by simp)) (fun _ => ?_)
  refine NoPart_pmTry ?_ (fun e => NoPart_of_frame (fun u => by cases u; rfl))
  refine NoPart_bind (NoPart_processStage env stage) (fun s => ?_)
  exact NoPart_bind (NoPart_of_frame (fun u => by cases u; rfl))
    (fun _ => NoPart_of_frame (fun u => by cases u; rfl))

lemma NoPart_phaseInitial (env : Env) : NoPart (phaseInitial env) := by
  rw [phaseInitial]
  refine NoPart_bind (NoPart_of_frame (fun u => rfl)) (fun ftrm => ?_)
  refine NoPart_bind (NoPart_emit env _ (by simp)) (fun _ => ?_)
  refine NoPart_bind (NoPart_initStageStep env _ 0) (fun _ => ?_)
  exact NoPart_bind (NoPart_initStageStep env _ 1) (fun _ => NoPart_of_frame (fun u => rfl))

lemma NoPart_chapterLoop (env : Env) (docDir : String) :
    ∀ (cs : List PlanChapter) (i : Nat) (toc : String),
      NoPart (chapterLoop env docDir cs i toc) := by
  intro cs
  induction cs with
  | nil => intro i toc; rw [chapterLoop]; exact NoPart_of_frame (fun u => rfl)
  | cons ch rest ih =>
    intro i toc
    rw [chapterLoop]
    refine NoPart_bind (NoPart_emit env _ (by simp)) (fun _ => ?_)
    refine NoPart_bind ?_ (fun content => ?_)
    · refine NoPart_pmTry ?_ (fun e => NoPart_of_frame (fun u => by cases u; rfl))
      refine NoPart_bind (NoPart_processStage env _) (fun s => ?_)
      refine NoPart_bind (NoPart_of_frame (fun u => by cases u; rfl)) (fun _ => ?_)
      exact NoPart_bind (NoPart_of_frame (fun u => by cases u; rfl))
        (fun _ => NoPart_of_frame (fun u => rfl))
    · exact NoPart_bind (NoPart_of_frame (fun u => by cases u; rfl)) (fun _ => ih (i + 1) _)

lemma NoPart_planInner (env : Env) (title repoUrl docDir mainPath planningText : String) :
    NoPart (planInner env title repoUrl docDir mainPath planningText) := by
  rw [planInner]
  split
  · refine NoPart_bind (NoPart_of_frame (fun u => by cases u; rfl)) (fun _ => ?_)
    dsimp only
    split
    · exact NoPart_of_frame (fun u => rfl)
    · exact NoPart_bind (NoPart_chapterLoop env docDir _ 0 _)
        (fun _ => NoPart_of_frame (fun u => by cases u; rfl))
  · exact NoPart_bind (NoPart_of_frame (fun u => by cases u; rfl))
      (fun rs => NoPart_of_frame (fun u => by cases u; rfl))

lemma NoPart_planPhase (env : Env) (title repoUrl docDir mainPath : String) :
    NoPart (planPhase env title repoUrl docDir mainPath) := by
  rw [planPhase]
  refine NoPart_bind (NoPart_of_frame (fun u => by cases u; rfl)) (fun rs => ?_)
  split
  · exact NoPart_pmTry (NoPart_planInner env _ _ _ _ _)
      (fun e => NoPart_bind (NoPart_of_frame (fun u => by cases u; rfl))
        (fun rs' => NoPart_of_frame (fun u => by cases u; rfl)))
  · exact NoPart_bind (NoPart_of_frame (fun u => by cases u; rfl))
      (fun rs' => NoPart_of_frame (fun u => by cases u; rfl))

lemma NoPart_optQcPhase (env : Env) : NoPart (optQcPhase env) := by
  rw [optQcPhase]
  refine NoPart_pmTry ?_
    (fun e => NoPart_bind (NoPart_of_frame (fun u => by cases u; rfl))
      (fun _ => NoPart_of_frame (fun u => by cases u; rfl)))
  refine NoPart_bind (NoPart_emit env _ (by simp)) (fun _ => ?_)
  refine NoPart_bind (NoPart_processStage env _) (fun s => ?_)
  refine NoPart_bind (NoPart_of_frame (fun u => by cases u; rfl)) (fun _ => ?_)
  refine NoPart_bind (NoPart_of_frame (fun u => by cases u; rfl)) (fun _ => ?_)
  refine NoPart_bind (NoPart_emit env _ (by simp)) (fun _ => ?_)
  refine NoPart_bind (NoPart_processStage env _) (fun s2 => ?_)
  refine NoPart_bind (NoPart_of_frame (fun u => by cases u; rfl)) (fun _ => ?_)
  exact NoPart_bind (NoPart_of_frame (fun u => by cases u; rfl))
    (fun _ => NoPart_of_frame (fun u => rfl))

lemma NoPart_generateDocumentation (env : Env) (repoUrl title requestId : String) :
    NoPart (generateDocumentation env repoUrl title requestId) := by
  rw [generateDocumentation]
  refine NoPart_bind (NoPart_pmTry (NoPart_phaseInitial env)
    (fun e => NoPart_of_frame (fun u => rfl))) (fun _ => ?_)
  refine NoPart_bind (NoPart_planPhase env _ _ _ _) (fun _ => ?_)
  refine NoPart_bind (NoPart_optQcPhase env) (fun _ => ?_)
  exact NoPart_bind (NoPart_emit env _ (by simp)) (fun _ => NoPart_of_frame (fun u => rfl))

lemma NoPart_workerCheck (env : Env) : NoPart (workerCheck env) := by
  rw [workerCheck]
  refine NoPart_bind (NoPart_of_frame (fun u => by cases u; rfl)) (fun found => ?_)
  cases found
  · rw [workerRecreate]
    simpa using NoPart_bind (NoPart_emit env _ (by simp))
      (fun _ => NoPart_of_frame (fun u => by cases u; rfl))
  · simpa using NoPart_of_frame (fun u => rfl)

lemma NoPart_runJob (env : Env) (repoUrl title requestId : String) :
    NoPart (runJob env repoUrl title requestId) := by
  rw [runJob]
  refine NoPart_pmTry ?_ (fun e => NoPart_of_frame (fun u => rfl))
  refine NoPart_bind (NoPart_workerCheck env) (fun _ => ?_)
  refine NoPart_bind (NoPart_emit env _ (by simp)) (fun _ => ?_)
  refine NoPart_pmTry ?_ (fun e => NoPart_emit env _ (by simp))
  refine NoPart_bind (NoPart_generateDocumentation env _ _ _) (fun out => ?_)
  split
  · exact NoPart_emit env _ (by simp)
  · exact NoPart_emit env _ (by simp)

lemma noPartial_run (env : Env) (repoUrl title : String) :
    ∀ x ∈ (runSubmittedJob env repoUrl title).taskSaves, x.status ≠ "partial" := by
  rw [runSubmittedJob]
  have hNP : NoPart (submitWrites env >>= fun _ =>
      runJob env repoUrl title (requestIdOf repoUrl title)) := by
    refine NoPart_bind ?_ (fun _ => NoPart_runJob env repoUrl title _)
    rw [submitWrites]
    exact NoPart_bind (NoPart_emit env _ (by simp))
      (fun _ => NoPart_of_frame (fun u => by cases u; rfl))
  obtain ⟨Δ, hΔ, hP⟩ := hNP emptyTrace
  intro x hx
  rw [show ((do
      submitWrites env
      runJob env repoUrl title (requestIdOf repoUrl title) : PM Unit) emptyTrace).1.taskSaves
    = [] ++ Δ from hΔ] at hx
  exact hP x (by simpa using hx)

lemma Tot_bind {m : PM α} {f : α → PM β} (hm : Tot m) (hf : ∀ a, Tot (f a)) :
    Tot (m >>= f) := by
  intro t
  obtain ⟨a, t₁, h₁⟩ := hm t
  obtain ⟨b, t₂, h₂⟩ := hf a t₁
  exact ⟨b, t₂, by show PM.bind m f t = _; rw [PM.bind, h₁]; exact h₂⟩

lemma Tot_pmTry_any {m : PM α} {h : String → PM α} (hh : ∀ e, Tot (h e)) :
    Tot (pmTry m h) := by
  intro t
  rw [pmTry]
  cases hmt : m t with
  | mk t₁ r =>
    cases r with
    | ok a => exact ⟨a, t₁, rfl⟩
    | error e =>
      obtain ⟨a, t₂, h₂⟩ := hh e t₁
      exact ⟨a, t₂, h₂⟩

lemma Tot_pmTry_body {m : PM α} {h : String → PM α} (hm : Tot m) :
    Tot (pmTry m h) := by
  intro t
  obtain ⟨a, t₁, h₁⟩ := hm t
  rw [pmTry, h₁]
  exact ⟨a, t₁, rfl⟩

lemma Tot_of_run (f : Trace → Trace) (g : ∀ t, α) (h : ∀ t, m t = (f t, Except.ok (g t))) :
    Tot m := fun t => ⟨g t, f t, h t⟩

lemma Tot_emitStageSave (s : StageSave) : Tot (emitStageSave s) := by
  intro t; cases t; exact ⟨(), _, rfl⟩

lemma Tot_writeFile (p c : String) : Tot (writeFile p c) := by
  intro t; cases t; exact ⟨(), _, rfl⟩

lemma Tot_putResult (k v : String) : Tot (putResult k v) := by
  intro t; cases t; exact ⟨(), _, rfl⟩

lemma Tot_getResults : Tot getResults := by
  intro t; cases t; exact ⟨_, _, rfl⟩

lemma Tot_anyTaskSave : Tot anyTaskSave := by
  intro t; cases t; exact ⟨_, _, rfl⟩

lemma Tot_pure (a : α) : Tot (PM.pure a) := fun t => ⟨a, t, rfl⟩

lemma Tot_pure' (a : α) : Tot (pure a : PM α) := fun t => ⟨a, t, rfl⟩

lemma Tot_emitTaskSave (env : Env) (ts : TaskSave) (hSave : ∀ n, env.taskSaveOk n = true) :
    Tot (emitTaskSave env ts) := by
  intro t
  cases t with
  | mk tsv ssv fls gcs slp res nT nG =>
    rw [emitTaskSave, if_pos (hSave nT)]
    exact ⟨(), _, rfl⟩

lemma Tot_initStageStep (env : Env) (stage : String) (idx : Nat)
    (hSave : ∀ n, env.taskSaveOk n = true) : Tot (initStageStep env stage idx) := by
  rw [initStageStep]
  exact Tot_bind (Tot_emitTaskSave env _ hSave)
    (fun _ => Tot_pmTry_any (fun e => Tot_emitStageSave _))

lemma Tot_phaseInitial (env : Env) (ftrm : String × String)
    (hFetch : env.fetch = Except.ok ftrm) (hSave : ∀ n, env.taskSaveOk n = true) :
    Tot (phaseInitial env) := by
  rw [phaseInitial]
  refine Tot_bind (fun t => ?_) (fun fr => ?_)
  · exact ⟨ftrm, t, by rw [liftExc, hFetch]⟩
  · exact Tot_bind (Tot_emitTaskSave env _ hSave) (fun _ =>
      Tot_bind (Tot_initStageStep env _ 0 hSave) (fun _ =>
        Tot_bind (Tot_initStageStep env _ 1 hSave) (fun _ => Tot_pure _)))

lemma Tot_planPhase (env : Env) (title repoUrl docDir mainPath : String) :
    Tot (planPhase env title repoUrl docDir mainPath) := by
  rw [planPhase]
  refine Tot_bind Tot_getResults (fun rs => ?_)
  split
  · exact Tot_pmTry_any (fun e => Tot_bind Tot_getResults (fun rs' => Tot_writeFile _ _))
  · exact Tot_bind Tot_getResults (fun rs' => Tot_writeFile _ _)

lemma Tot_optQcPhase (env : Env) : Tot (optQcPhase env) := by
  rw [optQcPhase]
  exact Tot_pmTry_any (fun e => Tot_bind (Tot_emitStageSave _) (fun _ => Tot_emitStageSave _))

lemma Tot_generateDocumentation (env : Env) (ftrm : String × String)
    (repoUrl title requestId : String)
    (hFetch : env.fetch = Except.ok ftrm) (hSave : ∀ n, env.taskSaveOk n = true) :
    Tot (generateDocumentation env repoUrl title requestId) := by
  rw [generateDocumentation]
  refine Tot_bind (Tot_pmTry_body (Tot_phaseInitial env ftrm hFetch hSave)) (fun _ => ?_)
  refine Tot_bind (Tot_planPhase env _ _ _ _) (fun _ => ?_)
  refine Tot_bind (Tot_optQcPhase env) (fun _ => ?_)
  exact Tot_bind (Tot_emitTaskSave env _ hSave) (fun _ => Tot_pure _)

lemma FilesFrame_bind {m : PM α} {f : α → PM β} (hm : FilesFrame m)
    (hf : ∀ a, FilesFrame (f a)) : FilesFrame (m >>= f) := by
  intro t
  show ((PM.bind m f t).1).files = t.files
  rw [PM.bind]
  cases hmt : m t with
  | mk t₁ r =>
    have h₁ : t₁.files = t.files := by have := hm t; rwa [hmt] at this
    cases r with
    | ok a => rw [hf a t₁, h₁]
    | error e => exact h₁

lemma FilesFrame_pmTry {m : PM α} {h : String → PM α} (hm : FilesFrame m)
    (hh : ∀ e, FilesFrame (h e)) : FilesFrame (pmTry m h) := by
  intro t
  rw [pmTry]
  cases hmt : m t with
  | mk t₁ r =>
    have h₁ : t₁.files = t.files := by have := hm t; rwa [hmt] at this
    cases r with
    | ok a => exact h₁
    | error e => rw [hh e t₁, h₁]

lemma FilesFrame_emitTaskSave (env : Env) (ts : TaskSave) :
    FilesFrame (emitTaskSave env ts) := by
  intro t
  cases t with
  | mk tsv ssv fls gcs slp res nT nG =>
    rw [emitTaskSave]
    split <;> rfl

lemma FilesFrame_emitStageSave (s : StageSave) : FilesFrame (emitStageSave s) := by
  intro t; cases t; rfl

lemma FilesFrame_putResult (k v : String) : FilesFrame (putResult k v) := by
  intro t; cases t; rfl

lemma FilesFrame_callStage (env : Env) (stage : String) : FilesFrame (callStage env stage) := by
  intro t; cases t; rfl

lemma FilesFrame_pure (a : α) : FilesFrame (PM.pure a) := fun _ => rfl

lemma FilesFrame_throwE (e : String) : FilesFrame (PM.throwE e : PM α) := fun _ => rfl

lemma FilesFrame_optQcPhase (env : Env) : FilesFrame (optQcPhase env) := by
  rw [optQcPhase]
  refine FilesFrame_pmTry ?_
    (fun e => FilesFrame_bind (FilesFrame_emitStageSave _)
      (fun _ => FilesFrame_emitStageSave _))
  refine FilesFrame_bind (FilesFrame_emitTaskSave env _) (fun _ => ?_)
  refine FilesFrame_bind (FilesFrame_bind (FilesFrame_emitStageSave _)
    (fun _ => FilesFrame_callStage env _)) (fun s => ?_)
  refine FilesFrame_bind (FilesFrame_putResult _ _) (fun _ => ?_)
  refine FilesFrame_bind (FilesFrame_emitStageSave _) (fun _ => ?_)
  refine FilesFrame_bind (FilesFrame_emitTaskSave env _) (fun _ => ?_)
  refine FilesFrame_bind (FilesFrame_bind (FilesFrame_emitStageSave _)
    (fun _ => FilesFrame_callStage env _)) (fun s2 => ?_)
  refine FilesFrame_bind (FilesFrame_putResult _ _) (fun _ => ?_)
  exact FilesFrame_bind (FilesFrame_emitStageSave _) (fun _ => FilesFrame_throwE _)

lemma step_bind {m : PM α} {f : α → PM β} {t t' : Trace} {a : α}
    (h : m t = (t', Except.ok a)) : (m >>= f) t = f a t' := by
  show PM.bind m f t = _
  rw [PM.bind, h]

lemma step_pmTry_ok {m : PM α} {h : String → PM α} {t t' : Trace} {a : α}
    (hm : m t = (t', Except.ok a)) : pmTry m h t = (t', Except.ok a) := by
  rw [pmTry, hm]

lemma step_pmTry_err {m : PM α} {h : String → PM α} {t t' : Trace} {e : String}
    (hm : m t = (t', Except.error e)) : pmTry m h t = h e t' := by
  rw [pmTry, hm]

/- phaseInitial: outcome and results content for a run starting with an
empty results dict -/

lemma pair_of_proj {m : PM α} {t : Trace} {a : α} (h : (m t).2 = Except.ok a) :
    m t = ((m t).1, Except.ok a) := by
  rw [← h]

lemma phaseInitial_results (env : Env) (ftrm : String × String)
    (hFetch : env.fetch = Except.ok ftrm) (hSave : ∀ n, env.taskSaveOk n = true)
    (tsv : List TaskSave) (ssv : List StageSave) (fls : List (String × String))
    (gcs : List String) (slp : List Nat) (nT nG : Nat) :
    (phaseInitial env ⟨tsv, ssv, fls, gcs, slp, [], nT, nG⟩).2 = Except.ok ftrm ∧
      ((phaseInitial env ⟨tsv, ssv, fls, gcs, slp, [], nT, nG⟩).1).files = fls ∧
      lookupR ((phaseInitial env ⟨tsv, ssv, fls, gcs, slp, [], nT, nG⟩).1).results "planning" =
        (match (pyRetry (env.attempt (nG + 1))).2.2 with
          | Except.ok s => some s
          | Except.error _ => none) := by
  rcases hr0 : pyRetry (env.attempt nG) with ⟨c0, sl0, out0⟩
  rcases hr1 : pyRetry (env.attempt (nG + 1)) with ⟨c1, sl1, out1⟩
  rcases out0 with e0 | s0 <;> rcases out1 with e1 | s1 <;>
    refine ⟨?_, ?_, ?_⟩ <;>
    simp [phaseInitial, initStageStep, processStage, callStage, emitTaskSave,
      emitStageSave, putResult, liftExc, pmTry, PM.bind, PM.pure, Bind.bind,
      Pure.pure, Monad.toBind, hFetch, hSave, hr0, hr1, insertR, lookupR, List.find?]

lemma planPhase_none (env : Env) (title repoUrl docDir mainPath : String)
    (tsv : List TaskSave) (ssv : List StageSave) (fls : List (String × String))
    (gcs : List String) (slp : List Nat) (res : List (String × String)) (nT nG : Nat)
    (hlk : lookupR res "planning" = none) :
    planPhase env title repoUrl docDir mainPath ⟨tsv, ssv, fls, gcs, slp, res, nT, nG⟩
      = (⟨tsv, ssv,
          fls ++ [(mainPath, compileWithFallback env.now res (some title) (some repoUrl))],
          gcs, slp, res, nT, nG⟩, Except.ok ()) := by
  simp [planPhase, getResults, writeFile, pmTry, PM.bind, PM.pure, Bind.bind,
    Pure.pure, Monad.toBind, hlk]

lemma planPhase_noTags (env : Env) (title repoUrl docDir mainPath ptext : String)
    (tsv : List TaskSave) (ssv : List StageSave) (fls : List (String × String))
    (gcs : List String) (slp : List Nat) (res : List (String × String)) (nT nG : Nat)
    (hlk : lookupR res "planning" = some ptext) (hx : extractXml ptext = none) :
    planPhase env title repoUrl docDir mainPath ⟨tsv, ssv, fls, gcs, slp, res, nT, nG⟩
      = (⟨tsv, ssv,
          fls ++ [(mainPath, compileWithFallback env.now res (some title) (some repoUrl))],
          gcs, slp, res, nT, nG⟩, Except.ok ()) := by
  simp [planPhase, planInner, getResults, writeFile, pmTry, PM.bind, PM.pure,
    Bind.bind, Pure.pure, Monad.toBind, hlk, hx]

lemma planPhase_parseFail (env : Env) (title repoUrl docDir mainPath ptext xml pe : String)
    (tsv : List TaskSave) (ssv : List StageSave) (fls : List (String × String))
    (gcs : List String) (slp : List Nat) (res : List (String × String)) (nT nG : Nat)
    (hlk : lookupR res "planning" = some ptext) (hx : extractXml ptext = some xml)
    (hp : env.parseXml (cleanEntities xml) = Except.error pe) :
    planPhase env title repoUrl docDir mainPath ⟨tsv, ssv, fls, gcs, slp, res, nT, nG⟩
      = (⟨tsv, ssv,
          fls ++ [(docDir ++ "/index.xml", xml),
            (mainPath, compileWithFallback env.now res (some title) (some repoUrl))],
          gcs, slp, res, nT, nG⟩, Except.ok ()) := by
  simp [planPhase, planInner, getResults, writeFile, pmTry, PM.bind, PM.pure,
    Bind.bind, Pure.pure, Monad.toBind, PM.throwE, hlk, hx, hp]

lemma planPhase_none' (env : Env) (title repoUrl docDir mainPath : String) (t : Trace)
    (hlk : lookupR t.results "planning" = none) :
    (planPhase env title repoUrl docDir mainPath t).2 = Except.ok () ∧
      ((planPhase env title repoUrl docDir mainPath t).1).files = t.files ++
        [(mainPath, compileWithFallback env.now t.results (some title) (some repoUrl))] := by
  obtain ⟨tsv, ssv, fls, gcs, slp, res, nT, nG⟩ := t
  rw [planPhase_none env title repoUrl docDir mainPath tsv ssv fls gcs slp res nT nG hlk]
  exact ⟨rfl, rfl⟩

lemma planPhase_noTags' (env : Env) (title repoUrl docDir mainPath ptext : String) (t : Trace)
    (hlk : lookupR t.results "planning" = some ptext) (hx : extractXml ptext = none) :
    (planPhase env title repoUrl docDir mainPath t).2 = Except.ok () ∧
      ((planPhase env title repoUrl docDir mainPath t).1).files = t.files ++
        [(mainPath, compileWithFallback env.now t.results (some title) (some repoUrl))] := by
  obtain ⟨tsv, ssv, fls, gcs, slp, res, nT, nG⟩ := t
  rw [planPhase_noTags env title repoUrl docDir mainPath ptext tsv ssv fls gcs slp res nT nG hlk hx]
  exact ⟨rfl, rfl⟩

lemma planPhase_parseFail' (env : Env) (title repoUrl docDir mainPath ptext xml pe : String)
    (t : Trace)
    (hlk : lookupR t.results "planning" = some ptext) (hx : extractXml ptext = some xml)
    (hp : env.parseXml (cleanEntities xml) = Except.error pe) :
    (planPhase env title repoUrl docDir mainPath t).2 = Except.ok () ∧
      ((planPhase env title repoUrl docDir mainPath t).1).files = t.files ++
        [(docDir ++ "/index.xml", xml),
          (mainPath, compileWithFallback env.now t.results (some title) (some repoUrl))] := by
  obtain ⟨tsv, ssv, fls, gcs, slp, res, nT, nG⟩ := t
  rw [planPhase_parseFail env title repoUrl docDir mainPath ptext xml pe tsv ssv fls gcs slp
    res nT nG hlk hx hp]
  exact ⟨rfl, rfl⟩

lemma mainPath_ne_empty (s r : String) :
    ("output/documentation/" ++ s ++ "_" ++ r ++ "/index.md") ≠ "" := by
  intro h
  have hl := congrArg String.length h
  rw [String.length_append, String.length_append, String.length_append,
    String.length_append] at hl
  have e1 : ("output/documentation/" : String).length = 21 := rfl
  have e2 : ("_" : String).length = 1 := rfl
  have e3 : ("/index.md" : String).length = 9 := rfl
  have e4 : ("" : String).length = 0 := rfl
  rw [e1, e2, e3, e4] at hl
  omega

lemma c9b_main (env : Env) (ftrm : String × String) (repoUrl title : String)
    (hFetch : env.fetch = Except.ok ftrm) (hSave : ∀ n, env.taskSaveOk n = true)
    (hNP : noPlanRun env) :
    ∃ res, lastWrite (runSubmittedJob env repoUrl title)
        ("output/documentation/" ++ safeTitle title ++ "_" ++ requestIdOf repoUrl title
          ++ "/index.md")
      = some (compileWithFallback env.now res (some title) (some repoUrl)) := by
  have e₁ : submitWrites env emptyTrace =
      (⟨[⟨"pending", 0, none, none, none, none⟩],
        fiveStages.map (fun s => ⟨s.1, s.2, false, none, none⟩),
        [], [], [], [], 1, 0⟩, Except.ok ()) := by
    simp [submitWrites, emitTaskSave, emitStageSave, emptyTrace, PM.bind, PM.pure,
      Bind.bind, Pure.pure, Monad.toBind, hSave, fiveStages, List.foldl]
  have e₂ : workerCheck env
      ⟨[⟨"pending", 0, none, none, none, none⟩],
        fiveStages.map (fun s => ⟨s.1, s.2, false, none, none⟩),
        [], [], [], [], 1, 0⟩ =
      (⟨[⟨"pending", 0, none, none, none, none⟩],
        fiveStages.map (fun s => ⟨s.1, s.2, false, none, none⟩),
        [], [], [], [], 1, 0⟩, Except.ok ()) := by
    simp [workerCheck, anyTaskSave, PM.bind, PM.pure, Bind.bind, Pure.pure, Monad.toBind]
  have e₃ : emitTaskSave env ⟨"running", 10, some "fetching_repository", none, none, none⟩
      ⟨[⟨"pending", 0, none, none, none, none⟩],
        fiveStages.map (fun s => ⟨s.1, s.2, false, none, none⟩),
        [], [], [], [], 1, 0⟩ =
      (⟨[⟨"pending", 0, none, none, none, none⟩,
          ⟨"running", 10, some "fetching_repository", none, none, none⟩],
        fiveStages.map (fun s => ⟨s.1, s.2, false, none, none⟩),
        [], [], [], [], 2, 0⟩, Except.ok ()) := by
    simp [emitTaskSave, hSave]
  obtain ⟨hg2, hgfiles, hglk⟩ := phaseInitial_results env ftrm hFetch hSave
    [⟨"pending", 0, none, none, none, none⟩,
      ⟨"running", 10, some "fetching_repository", none, none, none⟩]
    (fiveStages.map (fun s => ⟨s.1, s.2, false, none, none⟩)) [] [] [] 2 0
  have eg := pair_of_proj hg2
  have hglk' : lookupR ((phaseInitial env
      ⟨[⟨"pending", 0, none, none, none, none⟩,
        ⟨"running", 10, some "fetching_repository", none, none, none⟩],
        fiveStages.map (fun s => ⟨s.1, s.2, false, none, none⟩),
        [], [], [], [], 2, 0⟩).1).results "planning" =
      (match stageOutcome env 1 with
        | Except.ok s => some s
        | Except.error _ => none) := by
    rw [hglk, stageOutcome]
  -- case split on the planning outcome / extraction / parse
  have hplan : (planPhase env title repoUrl
        ("output/documentation/" ++ safeTitle title ++ "_" ++ requestIdOf repoUrl title)
        ("output/documentation/" ++ safeTitle title ++ "_" ++ requestIdOf repoUrl title
          ++ "/index.md")
        ((phaseInitial env
          ⟨[⟨"pending", 0, none, none, none, none⟩,
            ⟨"running", 10, some "fetching_repository", none, none, none⟩],
            fiveStages.map (fun s => ⟨s.1, s.2, false, none, none⟩),
            [], [], [], [], 2, 0⟩).1)).2 = Except.ok () ∧
      ∃ pre, ((planPhase env title repoUrl
        ("output/documentation/" ++ safeTitle title ++ "_" ++ requestIdOf repoUrl title)
        ("output/documentation/" ++ safeTitle title ++ "_" ++ requestIdOf repoUrl title
          ++ "/index.md")
        ((phaseInitial env
          ⟨[⟨"pending", 0, none, none, none, none⟩,
            ⟨"running", 10, some "fetching_repository", none, none, none⟩],
            fiveStages.map (fun s => ⟨s.1, s.2, false, none, none⟩),
            [], [], [], [], 2, 0⟩).1)).1).files =
        pre ++ [("output/documentation/" ++ safeTitle title ++ "_" ++ requestIdOf repoUrl title
          ++ "/index.md",
          compileWithFallback env.now ((phaseInitial env
            ⟨[⟨"pending", 0, none, none, none, none⟩,
              ⟨"running", 10, some "fetching_repository", none, none, none⟩],
              fiveStages.map (fun s => ⟨s.1, s.2, false, none, none⟩),
              [], [], [], [], 2, 0⟩).1).results (some title) (some repoUrl))] := by
    rw [noPlanRun] at hNP
    rcases hNP with ⟨e, hso⟩ | ⟨txt, hso, hx⟩ | ⟨txt, xml, pe, hso, hx, hp⟩
    · rw [hso] at hglk'
      obtain ⟨h2, hf⟩ := planPhase_none' env title repoUrl _ _ _ hglk'
      exact ⟨h2, _, hf⟩
    · rw [hso] at hglk'
      obtain ⟨h2, hf⟩ := planPhase_noTags' env title repoUrl _ _ txt _ hglk' hx
      exact ⟨h2, _, hf⟩
    · rw [hso] at hglk'
      obtain ⟨h2, hf⟩ := planPhase_parseFail' env title repoUrl _ _ txt xml pe _ hglk' hx hp
      refine ⟨h2, ((phaseInitial env
          ⟨[⟨"pending", 0, none, none, none, none⟩,
            ⟨"running", 10, some "fetching_repository", none, none, none⟩],
            fiveStages.map (fun s => ⟨s.1, s.2, false, none, none⟩),
            [], [], [], [], 2, 0⟩).1).files ++
        [("output/documentation/" ++ safeTitle title ++ "_"
          ++ requestIdOf repoUrl title ++ "/index.xml", xml)], ?_⟩
      rw [hf]
      simp
  obtain ⟨hp2, pre, hpf⟩ := hplan
  have ep := pair_of_proj hp2
  -- the optimization / quality-check phase and all later steps leave files alone
  obtain ⟨u, t₃, eo⟩ := Tot_optQcPhase env _
  have hof : t₃.files = ((planPhase env title repoUrl
      ("output/documentation/" ++ safeTitle title ++ "_" ++ requestIdOf repoUrl title)
      ("output/documentation/" ++ safeTitle title ++ "_" ++ requestIdOf repoUrl title
        ++ "/index.md")
      ((phaseInitial env
        ⟨[⟨"pending", 0, none, none, none, none⟩,
          ⟨"running", 10, some "fetching_repository", none, none, none⟩],
          fiveStages.map (fun s => ⟨s.1, s.2, false, none, none⟩),
          [], [], [], [], 2, 0⟩).1)).1).files := by
    have h := FilesFrame_optQcPhase env ((planPhase env title repoUrl
      ("output/documentation/" ++ safeTitle title ++ "_" ++ requestIdOf repoUrl title)
      ("output/documentation/" ++ safeTitle title ++ "_" ++ requestIdOf repoUrl title
        ++ "/index.md")
      ((phaseInitial env
        ⟨[⟨"pending", 0, none, none, none, none⟩,
          ⟨"running", 10, some "fetching_repository", none, none, none⟩],
          fiveStages.map (fun s => ⟨s.1, s.2, false, none, none⟩),
          [], [], [], [], 2, 0⟩).1)).1)
    rwa [eo] at h
  obtain ⟨u2, t₄, ee⟩ := Tot_emitTaskSave env
    ⟨"completed", 100, none, none, some env.now,
      some ("/api/v2/documentation/file/" ++ safeTitle title ++ "_"
        ++ requestIdOf repoUrl title ++ "/index.md")⟩ hSave t₃
  have hef : t₄.files = t₃.files := by
    have h := FilesFrame_emitTaskSave env
      (⟨"completed", 100, none, none, some env.now,
        some ("/api/v2/documentation/file/" ++ safeTitle title ++ "_"
          ++ requestIdOf repoUrl title ++ "/index.md")⟩ : TaskSave) t₃
    rwa [ee] at h
  have egen : generateDocumentation env repoUrl title (requestIdOf repoUrl title)
      ⟨[⟨"pending", 0, none, none, none, none⟩,
        ⟨"running", 10, some "fetching_repository", none, none, none⟩],
        fiveStages.map (fun s => ⟨s.1, s.2, false, none, none⟩),
        [], [], [], [], 2, 0⟩ =
      (t₄, Except.ok ("output/documentation/" ++ safeTitle title ++ "_"
        ++ requestIdOf repoUrl title ++ "/index.md")) := by
    rw [generateDocumentation]
    rw [step_bind (step_pmTry_ok eg), step_bind ep, step_bind eo, step_bind ee]
    rfl
  obtain ⟨u3, t₅, ec⟩ := Tot_emitTaskSave env
    ⟨"completed", 100, none, none, some env.now,
      some ("/api/v2/documentation/file/" ++ pyBasename
        ("output/documentation/" ++ safeTitle title ++ "_"
          ++ requestIdOf repoUrl title ++ "/index.md"))⟩ hSave t₄
  have hcf : t₅.files = t₄.files := by
    have h := FilesFrame_emitTaskSave env
      (⟨"completed", 100, none, none, some env.now,
        some ("/api/v2/documentation/file/" ++ pyBasename
          ("output/documentation/" ++ safeTitle title ++ "_"
            ++ requestIdOf repoUrl title ++ "/index.md"))⟩ : TaskSave) t₄
    rwa [ec] at h
  have efull : (submitWrites env >>= fun _ =>
      runJob env repoUrl title (requestIdOf repoUrl title)) emptyTrace = (t₅, Except.ok ()) := by
    rw [step_bind e₁, runJob]
    rw [step_pmTry_ok (show _ = (t₅, Except.ok ()) from ?_)]
    rw [step_bind e₂, step_bind e₃]
    rw [step_pmTry_ok (show _ = (t₅, Except.ok ()) from ?_)]
    rw [step_bind egen]
    rw [if_pos (mainPath_ne_empty (safeTitle title) (requestIdOf repoUrl title))]
    exact ec
  have hfin : (runSubmittedJob env repoUrl title).files =
      pre ++ [("output/documentation/" ++ safeTitle title ++ "_"
        ++ requestIdOf repoUrl title ++ "/index.md",
        compileWithFallback env.now ((phaseInitial env
          ⟨[⟨"pending", 0, none, none, none, none⟩,
            ⟨"running", 10, some "fetching_repository", none, none, none⟩],
            fiveStages.map (fun s => ⟨s.1, s.2, false, none, none⟩),
            [], [], [], [], 2, 0⟩).1).results (some title) (some repoUrl))] := by
    rw [runSubmittedJob]
    rw [show ((do
        submitWrites env
        runJob env repoUrl title (requestIdOf repoUrl title) : PM Unit) emptyTrace)
      = (t₅, Except.ok ()) from efull]
    rw [show (t₅, Except.ok ()).1 = t₅ from rfl]
    rw [hcf, hef, hof, hpf]
  refine ⟨((phaseInitial env
      ⟨[⟨"pending", 0, none, none, none, none⟩,
        ⟨"running", 10, some "fetching_repository", none, none, none⟩],
        fiveStages.map (fun s => ⟨s.1, s.2, false, none, none⟩),
        [], [], [], [], 2, 0⟩).1).results, ?_⟩
  rw [lastWrite, hfin]
  simp

lemma pyRetry_ok (attempt : Nat → Except String String) (s : String)
    (h : attempt 0 = Except.ok s) : pyRetry attempt = (1, [], Except.ok s) := by
  simp [pyRetry, pyRetryAux, h]

lemma pyRetry_err (attempt : Nat → Except String String) (e : String)
    (h : attempt 0 = Except.error e) (ht : isTransientMsg e = false) :
    pyRetry attempt = (1, [], Except.error e) := by
  simp [pyRetry, pyRetryAux, h, ht]

lemma emitTaskSave_ok (env : Env) (ts : TaskSave) (hSave : ∀ n, env.taskSaveOk n = true)
    (t : Trace) :
    emitTaskSave env ts t =
      (⟨t.taskSaves ++ [ts], t.stageSaves, t.files, t.genCalls, t.sleeps, t.results,
        t.nTask + 1, t.nGen⟩, Except.ok ()) := by
  obtain ⟨tsv, ssv, fls, gcs, slp, res, nT, nG⟩ := t
  simp [emitTaskSave, hSave]

lemma phaseInitial_run (env : Env) (ft rm : String) (g : Nat → String)
    (hFetch : env.fetch = Except.ok (ft, rm))
    (hSave : ∀ n, env.taskSaveOk n = true)
    (hPy : ∀ k, pyRetry (env.attempt k) = (1, [], Except.ok (g k)))
    (tsv : List TaskSave) (ssv : List StageSave) (fls : List (String × String))
    (gcs : List String) (slp : List Nat) (nT nG : Nat) :
    phaseInitial env ⟨tsv, ssv, fls, gcs, slp, [], nT, nG⟩ =
      (⟨tsv ++ [⟨"running", 20, some "code_analysis", none, none, none⟩,
          ⟨"running", 20, some "code_analysis", none, none, none⟩,
          ⟨"running", 30, some "planning", none, none, none⟩],
        ssv ++ [⟨"code_analysis", "Processing code analysis", false, none, none⟩,
          ⟨"code_analysis", "Completed code analysis", true, some 1, none⟩,
          ⟨"planning", "Processing planning", false, none, none⟩,
          ⟨"planning", "Completed planning", true, some 1, none⟩],
        fls, gcs ++ ["code_analysis", "planning"], slp,
        [("code_analysis", g nG), ("planning", g (nG + 1))],
        nT + 3, nG + 2⟩, Except.ok (ft, rm)) := by
  simp [phaseInitial, initStageStep, processStage, callStage, emitTaskSave,
    emitStageSave, putResult, liftExc, pmTry, PM.bind, PM.pure, Bind.bind,
    Pure.pure, Monad.toBind, hFetch, hSave, hPy, insertR, lookupR, List.find?, usp]

lemma optQcPhase_run (env : Env) (g : Nat → String)
    (hSave : ∀ n, env.taskSaveOk n = true)
    (hPy : ∀ k, pyRetry (env.attempt k) = (1, [], Except.ok (g k))) (t : Trace) :
    (optQcPhase env t).2 = Except.ok () ∧
    ((optQcPhase env t).1).stageSaves = t.stageSaves ++
      [⟨"optimization", "Processing optimization", false, none, none⟩,
       ⟨"optimization", "Completed optimization", true, some 1, none⟩,
       ⟨"quality_check", "Processing quality check", false, none, none⟩,
       ⟨"quality_check", "Completed quality check", true, some 1, none⟩,
       ⟨"optimization", "Error in optimization", false, none,
         some "AttributeError: \x27DocumentationAgent\x27 object has no attribute \x27_compile_final_documentation\x27"⟩,
       ⟨"quality_check", "Error in quality check", false, none,
         some "AttributeError: \x27DocumentationAgent\x27 object has no attribute \x27_compile_final_documentation\x27"⟩] ∧
    ((optQcPhase env t).1).taskSaves = t.taskSaves ++
      [⟨"running", 70, some "optimization", none, none, none⟩,
       ⟨"running", 85, some "quality_check", none, none, none⟩] := by
  obtain ⟨tsv, ssv, fls, gcs, slp, res, nT, nG⟩ := t
  refine ⟨?_, ?_, ?_⟩ <;>
    simp [optQcPhase, processStage, callStage, emitTaskSave, emitStageSave, putResult,
      pmTry, PM.bind, PM.pure, PM.throwE, Bind.bind, Pure.pure, Monad.toBind,
      hSave, hPy, usp]

lemma SFrame_bind {P : StageSave → Prop} {m : PM α} {f : α → PM β} (hm : SFrame P m)
    (hf : ∀ a, SFrame P (f a)) : SFrame P (m >>= f) := by
  intro t
  show ∃ Δ, ((PM.bind m f t).1).stageSaves = t.stageSaves ++ Δ ∧ ∀ s ∈ Δ, P s
  rw [PM.bind]
  cases hmt : m t with
  | mk t₁ r =>
    obtain ⟨Δ₁, h₁, p₁⟩ := hm t
    rw [hmt] at h₁
    cases r with
    | ok a =>
      obtain ⟨Δ₂, h₂, p₂⟩ := hf a t₁
      refine ⟨Δ₁ ++ Δ₂, by rw [h₂, h₁, List.append_assoc], ?_⟩
      intro s hs
      rcases List.mem_append.mp hs with h | h
      exacts [p₁ s h, p₂ s h]
    | error e => exact ⟨Δ₁, h₁, p₁⟩

lemma SFrame_pmTry {P : StageSave → Prop} {m : PM α} {h : String → PM α} (hm : SFrame P m)
    (hh : ∀ e, SFrame P (h e)) : SFrame P (pmTry m h) := by
  intro t
  rw [pmTry]
  cases hmt : m t with
  | mk t₁ r =>
    obtain ⟨Δ₁, h₁, p₁⟩ := hm t
    rw [hmt] at h₁
    cases r with
    | ok a => exact ⟨Δ₁, h₁, p₁⟩
    | error e =>
      obtain ⟨Δ₂, h₂, p₂⟩ := hh e t₁
      refine ⟨Δ₁ ++ Δ₂, by rw [h₂, h₁, List.append_assoc], ?_⟩
      intro s hs
      rcases List.mem_append.mp hs with h | h
      exacts [p₁ s h, p₂ s h]

lemma SFrame_of_frame {P : StageSave → Prop} {m : PM α}
    (hf : ∀ t, ((m t).1).stageSaves = t.stageSaves) : SFrame P m :=
  fun t => ⟨[], by simp [hf t], by simp⟩

lemma SFrame_emitTaskSave (P : StageSave → Prop) (env : Env) (ts : TaskSave) :
    SFrame P (emitTaskSave env ts) := by
  refine SFrame_of_frame (fun t => ?_)
  cases t with
  | mk tsv ssv fls gcs slp res nT nG =>
    rw [emitTaskSave]
    split <;> rfl

lemma SFrame_emitStageSave {P : StageSave → Prop} (s : StageSave) (h : P s) :
    SFrame P (emitStageSave s) := by
  intro t
  cases t with
  | mk tsv ssv fls gcs slp res nT nG =>
    exact ⟨[s], rfl, by simpa using h⟩

lemma SFrame_processStage_cg (P : StageSave → Prop) (env : Env)
    (h : P ⟨"content_generation", "Processing content generation", false, none, none⟩) :
    SFrame P (processStage env "content_generation") := by
  rw [processStage]
  refine SFrame_bind (SFrame_emitStageSave _ ?_)
    (fun _ => SFrame_of_frame (fun u => by cases u; rfl))
  have hu : usp "content_generation" = "content generation" := by decide
  simpa [hu] using h

lemma SFrame_chapterLoop (env : Env) (docDir : String) :
    ∀ (cs : List PlanChapter) (i : Nat) (toc : String),
      SFrame cgPred (chapterLoop env docDir cs i toc) := by
  intro cs
  induction cs with
  | nil => intro i toc; rw [chapterLoop]; exact SFrame_of_frame (fun u => rfl)
  | cons ch rest ih =>
    intro i toc
    rw [chapterLoop]
    refine SFrame_bind (SFrame_emitTaskSave _ env _) (fun _ => ?_)
    refine SFrame_bind ?_ (fun content => ?_)
    · refine SFrame_pmTry ?_ (fun e => ?_)
      · refine SFrame_bind (SFrame_processStage_cg _ env (Or.inl ⟨rfl, rfl⟩)) (fun s => ?_)
        refine SFrame_bind (SFrame_of_frame (fun u => by cases u; rfl)) (fun _ => ?_)
        exact SFrame_bind (SFrame_emitStageSave _ (Or.inr ⟨_, rfl⟩))
          (fun _ => SFrame_of_frame (fun u => rfl))
      · exact SFrame_bind (SFrame_emitStageSave _ (Or.inr ⟨_, rfl⟩))
          (fun _ => SFrame_of_frame (fun u => rfl))
    · exact SFrame_bind (SFrame_of_frame (fun u => by cases u; rfl)) (fun _ => ih (i + 1) _)

lemma SFrame_planInner (env : Env) (title repoUrl docDir mainPath planningText : String) :
    SFrame cgPred (planInner env title repoUrl docDir mainPath planningText) := by
  rw [planInner]
  split
  · refine SFrame_bind (SFrame_of_frame (fun u => by cases u; rfl)) (fun _ => ?_)
    dsimp only
    split
    · exact SFrame_of_frame (fun u => rfl)
    · exact SFrame_bind (SFrame_chapterLoop env docDir _ 0 _)
        (fun _ => SFrame_of_frame (fun u => by cases u; rfl))
  · exact SFrame_bind (SFrame_of_frame (fun u => by cases u; rfl))
      (fun rs => SFrame_of_frame (fun u => by cases u; rfl))

lemma SFrame_planPhase (env : Env) (title repoUrl docDir mainPath : String) :
    SFrame cgPred (planPhase env title repoUrl docDir mainPath) := by
  rw [planPhase]
  refine SFrame_bind (SFrame_of_frame (fun u => by cases u; rfl)) (fun rs => ?_)
  split
  · exact SFrame_pmTry (SFrame_planInner env _ _ _ _ _)
      (fun e => SFrame_bind (SFrame_of_frame (fun u => by cases u; rfl))
        (fun rs' => SFrame_of_frame (fun u => by cases u; rfl)))
  · exact SFrame_bind (SFrame_of_frame (fun u => by cases u; rfl))
      (fun rs' => SFrame_of_frame (fun u => by cases u; rfl))

lemma find?_append_none {α : Type} {l₁ l₂ : List α} {p : α → Bool}
    (h : l₁.find? p = none) : (l₁ ++ l₂).find? p = l₂.find? p := by
  rw [List.find?_append, h, Option.none_or]

lemma find?_append_some {α : Type} {l₁ l₂ : List α} {p : α → Bool} {a : α}
    (h : l₁.find? p = some a) : (l₁ ++ l₂).find? p = some a := by
  rw [List.find?_append, h]
  rfl

lemma cgname_ne (cid : String) (x : String) (hx : x.length < 19) :
    ("content_generation_" ++ cid) ≠ x := by
  intro h
  have hl := congrArg String.length h
  rw [String.length_append] at hl
  have h19 : ("content_generation_" : String).length = 19 := rfl
  rw [h19] at hl
  omega

lemma find?_cg_none {Δ : List StageSave} (hp : ∀ s ∈ Δ, cgPred s) (n : String)
    (hn : n ≠ "content_generation") (hlen : n.length < 19) :
    Δ.find? (·.name == n) = none := by
  rw [List.find?_eq_none]
  intro s hs hb
  have hname : s.name = n := by simpa using hb
  rcases hp s hs with ⟨h1, _⟩ | ⟨cid, h2⟩
  · exact hn (by rw [← hname, h1])
  · exact cgname_ne cid n hlen (by rw [← h2, hname])

lemma find?_cg_cases {Δ : List StageSave} (hp : ∀ s ∈ Δ, cgPred s) :
    Δ.find? (·.name == "content_generation") = none ∨
    ∃ s, Δ.find? (·.name == "content_generation") = some s ∧ s.completed = false := by
  cases hf : Δ.find? (·.name == "content_generation") with
  | none => exact Or.inl rfl
  | some s =>
    refine Or.inr ⟨s, rfl, ?_⟩
    have hmem := List.mem_of_find?_eq_some hf
    have hb := List.find?_some hf
    have hname : s.name = "content_generation" := by simpa using hb
    rcases hp s hmem with ⟨_, h2⟩ | ⟨cid, h2⟩
    · exact h2
    · exact absurd (h2 ▸ hname) (cgname_ne cid "content_generation" (by decide))

lemma urlNe (s : String) : ("/api/v2/documentation/file/" ++ s) ≠ "" := by
  intro h
  have hl := congrArg String.length h
  rw [String.length_append] at hl
  have h27 : ("/api/v2/documentation/file/" : String).length = 27 := rfl
  have h0 : ("" : String).length = 0 := rfl
  rw [h27, h0] at hl
  omega

lemma c1_main (env : Env) (ft rm : String) (g : Nat → String) (repoUrl title : String)
    (hFetch : env.fetch = Except.ok (ft, rm))
    (hSave : ∀ n, env.taskSaveOk n = true)
    (hOk : ∀ k, env.attempt k 0 = Except.ok (g k)) :
    finalStatus (runSubmittedJob env repoUrl title) = some "completed" ∧
    (∃ u, (finalTask (runSubmittedJob env repoUrl title)).map (·.outputUrl)
        = some (some u) ∧ u ≠ "") ∧
    stageCompleted (runSubmittedJob env repoUrl title) "code_analysis" = some true ∧
    stageCompleted (runSubmittedJob env repoUrl title) "planning" = some true ∧
    stageCompleted (runSubmittedJob env repoUrl title) "optimization" = some false ∧
    stageCompleted (runSubmittedJob env repoUrl title) "quality_check" = some false ∧
    stageCompleted (runSubmittedJob env repoUrl title) "content_generation" = some false := by
  have hPy : ∀ k, pyRetry (env.attempt k) = (1, [], Except.ok (g k)) :=
    fun k => pyRetry_ok _ _ (hOk k)
  have e₁ : submitWrites env emptyTrace =
      (⟨[⟨"pending", 0, none, none, none, none⟩],
        fiveStages.map (fun s => ⟨s.1, s.2, false, none, none⟩),
        [], [], [], [], 1, 0⟩, Except.ok ()) := by
    simp [submitWrites, emitTaskSave, emitStageSave, emptyTrace, PM.bind, PM.pure,
      Bind.bind, Pure.pure, Monad.toBind, hSave, fiveStages, List.foldl]
  have e₂ : workerCheck env
      ⟨[⟨"pending", 0, none, none, none, none⟩],
        fiveStages.map (fun s => ⟨s.1, s.2, false, none, none⟩),
        [], [], [], [], 1, 0⟩ =
      (⟨[⟨"pending", 0, none, none, none, none⟩],
        fiveStages.map (fun s => ⟨s.1, s.2, false, none, none⟩),
        [], [], [], [], 1, 0⟩, Except.ok ()) := by
    simp [workerCheck, anyTaskSave, PM.bind, PM.pure, Bind.bind, Pure.pure, Monad.toBind]
  have e₃ : emitTaskSave env ⟨"running", 10, some "fetching_repository", none, none, none⟩
      ⟨[⟨"pending", 0, none, none, none, none⟩,],
        fiveStages.map (fun s => ⟨s.1, s.2, false, none, none⟩),
        [], [], [], [], 1, 0⟩ =
      (⟨[⟨"pending", 0, none, none, none, none⟩,
          ⟨"running", 10, some "fetching_repository", none, none, none⟩],
        fiveStages.map (fun s => ⟨s.1, s.2, false, none, none⟩),
        [], [], [], [], 2, 0⟩, Except.ok ()) := by
    simp [emitTaskSave, hSave]
  have eg := phaseInitial_run env ft rm g hFetch hSave hPy
    [⟨"pending", 0, none, none, none, none⟩,
      ⟨"running", 10, some "fetching_repository", none, none, none⟩]
    (fiveStages.map (fun s => ⟨s.1, s.2, false, none, none⟩)) [] [] [] 2 0
  obtain ⟨u₁, t₂, ep⟩ := Tot_planPhase env title repoUrl
    ("output/documentation/" ++ safeTitle title ++ "_" ++ requestIdOf repoUrl title)
    ("output/documentation/" ++ safeTitle title ++ "_" ++ requestIdOf repoUrl title
      ++ "/index.md")
    ⟨[⟨"pending", 0, none, none, none, none⟩,
        ⟨"running", 10, some "fetching_repository", none, none, none⟩] ++
      [⟨"running", 20, some "code_analysis", none, none, none⟩,
        ⟨"running", 20, some "code_analysis", none, none, none⟩,
        ⟨"running", 30, some "planning", none, none, none⟩],
      (fiveStages.map (fun s => ⟨s.1, s.2, false, none, none⟩)) ++
        [⟨"code_analysis", "Processing code analysis", false, none, none⟩,
          ⟨"code_analysis", "Completed code analysis", true, some 1, none⟩,
          ⟨"planning", "Processing planning", false, none, none⟩,
          ⟨"planning", "Completed planning", true, some 1, none⟩],
      [], [] ++ ["code_analysis", "planning"], [],
      [("code_analysis", g 0), ("planning", g (0 + 1))], 2 + 3, 0 + 2⟩
  obtain ⟨Δp, hss₂, hpp⟩ := SFrame_planPhase env title repoUrl
    ("output/documentation/" ++ safeTitle title ++ "_" ++ requestIdOf repoUrl title)
    ("output/documentation/" ++ safeTitle title ++ "_" ++ requestIdOf repoUrl title
      ++ "/index.md")
    ⟨[⟨"pending", 0, none, none, none, none⟩,
        ⟨"running", 10, some "fetching_repository", none, none, none⟩] ++
      [⟨"running", 20, some "code_analysis", none, none, none⟩,
        ⟨"running", 20, some "code_analysis", none, none, none⟩,
        ⟨"running", 30, some "planning", none, none, none⟩],
      (fiveStages.map (fun s => ⟨s.1, s.2, false, none, none⟩)) ++
        [⟨"code_analysis", "Processing code analysis", false, none, none⟩,
          ⟨"code_analysis", "Completed code analysis", true, some 1, none⟩,
          ⟨"planning", "Processing planning", false, none, none⟩,
          ⟨"planning", "Completed planning", true, some 1, none⟩],
      [], [] ++ ["code_analysis", "planning"], [],
      [("code_analysis", g 0), ("planning", g (0 + 1))], 2 + 3, 0 + 2⟩
  rw [ep] at hss₂
  obtain ⟨ho2, hoss, hots⟩ := optQcPhase_run env g hSave hPy t₂
  have eo := pair_of_proj ho2
  have ee := emitTaskSave_ok env
    ⟨"completed", 100, none, none, some env.now,
      some ("/api/v2/documentation/file/" ++ safeTitle title ++ "_"
        ++ requestIdOf repoUrl title ++ "/index.md")⟩ hSave ((optQcPhase env t₂).1)
  have egen : generateDocumentation env repoUrl title (requestIdOf repoUrl title)
      ⟨[⟨"pending", 0, none, none, none, none⟩,
        ⟨"running", 10, some "fetching_repository", none, none, none⟩],
        fiveStages.map (fun s => ⟨s.1, s.2, false, none, none⟩),
        [], [], [], [], 2, 0⟩ =
      (⟨((optQcPhase env t₂).1).taskSaves ++
          [⟨"completed", 100, none, none, some env.now,
            some ("/api/v2/documentation/file/" ++ safeTitle title ++ "_"
              ++ requestIdOf repoUrl title ++ "/index.md")⟩],
        ((optQcPhase env t₂).1).stageSaves, ((optQcPhase env t₂).1).files,
        ((optQcPhase env t₂).1).genCalls, ((optQcPhase env t₂).1).sleeps,
        ((optQcPhase env t₂).1).results, ((optQcPhase env t₂).1).nTask + 1,
        ((optQcPhase env t₂).1).nGen⟩,
        Except.ok ("output/documentation/" ++ safeTitle title ++ "_"
          ++ requestIdOf repoUrl title ++ "/index.md")) := by
    rw [generateDocumentation]
    rw [step_bind (step_pmTry_ok eg), step_bind ep, step_bind eo, step_bind ee]
    rfl
  have ecw := emitTaskSave_ok env
    ⟨"completed", 100, none, none, some env.now,
      some ("/api/v2/documentation/file/" ++ pyBasename
        ("output/documentation/" ++ safeTitle title ++ "_"
          ++ requestIdOf repoUrl title ++ "/index.md"))⟩ hSave
    ⟨((optQcPhase env t₂).1).taskSaves ++
        [⟨"completed", 100, none, none, some env.now,
          some ("/api/v2/documentation/file/" ++ safeTitle title ++ "_"
            ++ requestIdOf repoUrl title ++ "/index.md")⟩],
      ((optQcPhase env t₂).1).stageSaves, ((optQcPhase env t₂).1).files,
      ((optQcPhase env t₂).1).genCalls, ((optQcPhase env t₂).1).sleeps,
      ((optQcPhase env t₂).1).results, ((optQcPhase env t₂).1).nTask + 1,
      ((optQcPhase env t₂).1).nGen⟩
  have efull : (submitWrites env >>= fun _ =>
      runJob env repoUrl title (requestIdOf repoUrl title)) emptyTrace =
      (⟨(((optQcPhase env t₂).1).taskSaves ++
          [⟨"completed", 100, none, none, some env.now,
            some ("/api/v2/documentation/file/" ++ safeTitle title ++ "_"
              ++ requestIdOf repoUrl title ++ "/index.md")⟩]) ++
          [⟨"completed", 100, none, none, some env.now,
            some ("/api/v2/documentation/file/" ++ pyBasename
              ("output/documentation/" ++ safeTitle title ++ "_"
                ++ requestIdOf repoUrl title ++ "/index.md"))⟩],
        ((optQcPhase env t₂).1).stageSaves, ((optQcPhase env t₂).1).files,
        ((optQcPhase env t₂).1).genCalls, ((optQcPhase env t₂).1).sleeps,
        ((optQcPhase env t₂).1).results, ((optQcPhase env t₂).1).nTask + 1 + 1,
        ((optQcPhase env t₂).1).nGen⟩, Except.ok ()) := by
    rw [step_bind e₁, runJob]
    rw [step_pmTry_ok (show _ = _ from ?_)]
    rw [step_bind e₂, step_bind e₃]
    rw [step_pmTry_ok (show _ = _ from ?_)]
    rw [step_bind egen]
    rw [if_pos (mainPath_ne_empty (safeTitle title) (requestIdOf repoUrl title))]
    exact ecw
  have hTF : runSubmittedJob env repoUrl title =
      ⟨(((optQcPhase env t₂).1).taskSaves ++
          [⟨"completed", 100, none, none, some env.now,
            some ("/api/v2/documentation/file/" ++ safeTitle title ++ "_"
              ++ requestIdOf repoUrl title ++ "/index.md")⟩]) ++
          [⟨"completed", 100, none, none, some env.now,
            some ("/api/v2/documentation/file/" ++ pyBasename
              ("output/documentation/" ++ safeTitle title ++ "_"
                ++ requestIdOf repoUrl title ++ "/index.md"))⟩],
        ((optQcPhase env t₂).1).stageSaves, ((optQcPhase env t₂).1).files,
        ((optQcPhase env t₂).1).genCalls, ((optQcPhase env t₂).1).sleeps,
        ((optQcPhase env t₂).1).results, ((optQcPhase env t₂).1).nTask + 1 + 1,
        ((optQcPhase env t₂).1).nGen⟩ := by
    rw [runSubmittedJob]
    rw [show ((do
        submitWrites env
        runJob env repoUrl title (requestIdOf repoUrl title) : PM Unit) emptyTrace)
      = _ from efull]
  have hSS : ((optQcPhase env t₂).1).stageSaves =
      (((fiveStages.map (fun s => (⟨s.1, s.2, false, none, none⟩ : StageSave))) ++
        [⟨"code_analysis", "Processing code analysis", false, none, none⟩,
          ⟨"code_analysis", "Completed code analysis", true, some 1, none⟩,
          ⟨"planning", "Processing planning", false, none, none⟩,
          ⟨"planning", "Completed planning", true, some 1, none⟩]) ++ Δp) ++
      [⟨"optimization", "Processing optimization", false, none, none⟩,
       ⟨"optimization", "Completed optimization", true, some 1, none⟩,
       ⟨"quality_check", "Processing quality check", false, none, none⟩,
       ⟨"quality_check", "Completed quality check", true, some 1, none⟩,
       ⟨"optimization", "Error in optimization", false, none,
         some "AttributeError: \x27DocumentationAgent\x27 object has no attribute \x27_compile_final_documentation\x27"⟩,
       ⟨"quality_check", "Error in quality check", false, none,
         some "AttributeError: \x27DocumentationAgent\x27 object has no attribute \x27_compile_final_documentation\x27"⟩] := by
    rw [hoss, hss₂]
  refine ⟨?_, ?_, ?_, ?_, ?_, ?_, ?_⟩
  · rw [finalStatus, finalTask, hTF]
    show (Option.map _ (List.getLast? (_ ++ _))) = _
    rw [List.getLast?_concat]
    rfl
  · refine ⟨"/api/v2/documentation/file/" ++ pyBasename
      ("output/documentation/" ++ safeTitle title ++ "_"
        ++ requestIdOf repoUrl title ++ "/index.md"), ?_, urlNe _⟩
    rw [finalTask, hTF]
    show (Option.map _ (List.getLast? (_ ++ _))) = _
    rw [List.getLast?_concat]
    rfl
  · rw [stageCompleted, finalStageRow, hTF]
    show ((((optQcPhase env t₂).1).stageSaves.reverse.find? _).map _) = _
    rw [hSS]
    rw [List.reverse_append, List.reverse_append, List.reverse_append]
    rw [find?_append_none (by decide)]
    rw [find?_append_none (find?_cg_none (fun s hs => hpp s (List.mem_reverse.mp hs))
      "code_analysis" (by decide) (by decide))]
    rw [find?_append_some (show _ = some
      (⟨"code_analysis", "Completed code analysis", true, some 1, none⟩ : StageSave)
      by decide)]
    rfl
  · rw [stageCompleted, finalStageRow, hTF]
    show ((((optQcPhase env t₂).1).stageSaves.reverse.find? _).map _) = _
    rw [hSS]
    rw [List.reverse_append, List.reverse_append, List.reverse_append]
    rw [find?_append_none (by decide)]
    rw [find?_append_none (find?_cg_none (fun s hs => hpp s (List.mem_reverse.mp hs))
      "planning" (by decide) (by decide))]
    rw [find?_append_some (show _ = some
      (⟨"planning", "Completed planning", true, some 1, none⟩ : StageSave)
      by decide)]
    rfl
  · rw [stageCompleted, finalStageRow, hTF]
    show ((((optQcPhase env t₂).1).stageSaves.reverse.find? _).map _) = _
    rw [hSS]
    rw [List.reverse_append, List.reverse_append, List.reverse_append]
    rw [find?_append_some (show _ = some
      (⟨"optimization", "Error in optimization", false, none,
        some "AttributeError: \x27DocumentationAgent\x27 object has no attribute \x27_compile_final_documentation\x27"⟩ : StageSave)
      by decide)]
    rfl
  · rw [stageCompleted, finalStageRow, hTF]
    show ((((optQcPhase env t₂).1).stageSaves.reverse.find? _).map _) = _
    rw [hSS]
    rw [List.reverse_append, List.reverse_append, List.reverse_append]
    rw [find?_append_some (show _ = some
      (⟨"quality_check", "Error in quality check", false, none,
        some "AttributeError: \x27DocumentationAgent\x27 object has no attribute \x27_compile_final_documentation\x27"⟩ : StageSave)
      by decide)]
    rfl
  · rw [stageCompleted, finalStageRow, hTF]
    show ((((optQcPhase env t₂).1).stageSaves.reverse.find? _).map _) = _
    rw [hSS]
    rw [List.reverse_append, List.reverse_append, List.reverse_append]
    rw [find?_append_none (by decide)]
    rcases find?_cg_cases (fun s hs => hpp s (List.mem_reverse.mp hs))
      (Δ := Δp.reverse) with hn | ⟨s, hsf, hsc⟩
    · rw [find?_append_none hn]
      rw [find?_append_none (by decide)]
      rw [show (fiveStages.map
          (fun s => (⟨s.1, s.2, false, none, none⟩ : StageSave))).reverse.find?
          (·.name == "content_generation") = some
          ⟨"content_generation", "Generating documentation content", false, none, none⟩
        from by decide]
      rfl
    · rw [find?_append_some hsf]
      simp [hsc]

lemma c3_main (env : Env) (ft rm : String) (g : Nat → String) (e : String)
    (repoUrl title : String)
    (hFetch : env.fetch = Except.ok (ft, rm))
    (hSave : ∀ n, env.taskSaveOk n = true)
    (hOk : ∀ k, k ≠ 1 → env.attempt k 0 = Except.ok (g k))
    (hPl : env.attempt 1 0 = Except.error e) (hTr : isTransientMsg e = false) :
    (runSubmittedJob env repoUrl title).genCalls
      = ["code_analysis", "planning", "optimization", "quality_check"] ∧
    genCount (runSubmittedJob env repoUrl title) "content_generation" = 0 ∧
    ∃ a b, lastWrite (runSubmittedJob env repoUrl title)
        ("output/documentation/" ++ safeTitle title ++ "_" ++ requestIdOf repoUrl title
          ++ "/index.md")
      = some (a ++ ("- Planning: ❌ Failed or Skipped\n" ++ b)) := by
  have h0 := pyRetry_ok _ _ (hOk 0 (by decide))
  have h1 := pyRetry_err _ _ hPl hTr
  have h2 := pyRetry_ok _ _ (hOk 2 (by decide))
  have h3 := pyRetry_ok _ _ (hOk 3 (by decide))
  have hne : ("output/documentation/" ++ safeTitle title ++ "_"
      ++ requestIdOf repoUrl title ++ "/index.md") ≠ "" :=
    mainPath_ne_empty (safeTitle title) (requestIdOf repoUrl title)
  have hne2 : ("output/documentation/" ++ (safeTitle title ++ ("_"
      ++ (requestIdOf repoUrl title ++ "/index.md")))) ≠ "" := by
    simpa [String.append_assoc] using hne
  refine ⟨?_, ?_, ?_⟩
  · simp [runSubmittedJob, submitWrites, runJob, workerCheck, workerRecreate,
      generateDocumentation, phaseInitial, initStageStep, processStage, callStage,
      emitTaskSave, emitStageSave, writeFile, putResult, getResults, anyTaskSave,
      planPhase, planInner, optQcPhase, pmTry, PM.bind, PM.pure, PM.throwE, liftExc,
      Bind.bind, Pure.pure, Monad.toBind, emptyTrace, hFetch, hSave, h0, h1, h2, h3,
      hne, insertR, lookupR, List.find?, compileWithFallback, fiveStages, List.foldl]
  · simp [genCount, runSubmittedJob, submitWrites, runJob, workerCheck, workerRecreate,
      generateDocumentation, phaseInitial, initStageStep, processStage, callStage,
      emitTaskSave, emitStageSave, writeFile, putResult, getResults, anyTaskSave,
      planPhase, planInner, optQcPhase, pmTry, PM.bind, PM.pure, PM.throwE, liftExc,
      Bind.bind, Pure.pure, Monad.toBind, emptyTrace, hFetch, hSave, h0, h1, h2, h3,
      hne, insertR, lookupR, List.find?, compileWithFallback, fiveStages, List.foldl]
  · refine ⟨"# " ++ title ++ "\n\n*Generated on: " ++ env.now ++ "*\n\n"
        ++ ("Repository: " ++ repoUrl ++ "\n\n")
        ++ ("## Code Analysis\n\n" ++ g 0 ++ "\n\n")
        ++ "## Documentation Content\n\nNo content was generated during the content generation phase.\n\n"
        ++ "\n\n## Generation Status\n\n"
        ++ "- Code Analysis: ✅ Completed\n",
      "- Content Generation: ❌ Failed or Skipped\n- Optimization: ❌ Failed or Skipped\n- Quality Check: ❌ Failed or Skipped\n",
      ?_⟩
    simp [runSubmittedJob, submitWrites, runJob, workerCheck, workerRecreate,
      generateDocumentation, phaseInitial, initStageStep, processStage, callStage,
      emitTaskSave, emitStageSave, writeFile, putResult, getResults, anyTaskSave,
      planPhase, planInner, optQcPhase, pmTry, PM.bind, PM.pure, PM.throwE, liftExc,
      Bind.bind, Pure.pure, Monad.toBind, emptyTrace, hFetch, hSave, h0, h1, h2, h3,
      hne, hne2, insertR, lookupR, List.find?, compileWithFallback, fiveStages,
      List.foldl, lastWrite, pyTitle, usp, pyTitleAux, fiveStageNames, String.join,
      String.append_assoc]

lemma joinNlC_cons_cons (a b : List Char) (t : List (List Char)) :
    joinNlC (a :: b :: t) = a ++ '\n' :: joinNlC (b :: t) := rfl

lemma splitOnC_replicate_nl (n : Nat) :
    splitOnC '\n' (List.replicate n '\n') = List.replicate (n + 1) [] := by
  induction n with
  | zero => simp [splitOnC]
  | succ m ih => simp [List.replicate_succ, splitOnC, ih]

lemma truncLoop_replicate_nil (m cur : Nat) (h : cur ≤ 10000) :
    truncLoop (List.replicate m ([] : List Char)) cur = List.replicate m [] := by
  induction m with
  | zero => simp [truncLoop]
  | succ k ih => simp [List.replicate_succ, truncLoop, lineTokens, h, ih]

lemma joinNlC_cons_replicate (n : Nat) :
    joinNlC ([] :: List.replicate n ([] : List Char)) = List.replicate n '\n' := by
  induction n with
  | zero => rfl
  | succ m ih =>
    rw [List.replicate_succ, joinNlC_cons_cons, ih]
    simp [List.replicate_succ]

lemma joinNlC_replicate_nil (n : Nat) :
    joinNlC (List.replicate (n + 1) ([] : List Char)) = List.replicate n '\n' := by
  rw [List.replicate_succ]; exact joinNlC_cons_replicate n

lemma truncLoop_tokens (L : List (List Char)) : ∀ cur, cur ≤ 10000 →
    cur + sumTokens (truncLoop L cur) ≤ 10000 := by
  induction L with
  | nil => intro cur h; simpa [truncLoop, sumTokens]
  | cons f rest ih =>
    intro cur h
    by_cases hf : cur + lineTokens f ≤ 10000
    · rw [truncLoop, if_pos hf]
      have := ih (cur + lineTokens f) hf
      simp [sumTokens] at this ⊢
      omega
    · rw [truncLoop, if_neg hf]
      simpa [sumTokens]

lemma len_le_four_tokens (l : List Char) : l.length ≤ 4 * lineTokens l + 3 := by
  rw [lineTokens]
  omega

lemma joinNlC_length (L : List (List Char)) : (joinNlC L).length ≤ sumLen L + L.length := by
  induction L with
  | nil => simp [joinNlC, sumLen]
  | cons a t ih =>
    cases t with
    | nil => simp [joinNlC, sumLen]
    | cons b r =>
      rw [joinNlC_cons_cons]
      simp only [List.length_append, List.length_cons, sumLen, List.map_cons,
        List.sum_cons] at ih ⊢
      omega

lemma sumLen_le (L : List (List Char)) : sumLen L ≤ 4 * sumTokens L + 3 * L.length := by
  induction L with
  | nil => simp [sumLen, sumTokens]
  | cons a t ih =>
    have := len_le_four_tokens a
    simp only [sumLen, sumTokens, List.map_cons, List.sum_cons, List.length_cons] at ih ⊢
    omega

lemma c5_bounds (ft : List Char) (h : 10000 < treeTokens ft) :
    sumTokens (truncLoop (splitOnC '\n' ft) 0) ≤ 10000 ∧
    fileTreeSectionChars ft = joinNlC (truncLoop (splitOnC '\n' ft) 0) ++ truncMarker ∧
    (joinNlC (truncLoop (splitOnC '\n' ft) 0)).length ≤
      40000 + 4 * (truncLoop (splitOnC '\n' ft) 0).length := by
  refine ⟨?_, ?_, ?_⟩
  · have := truncLoop_tokens (splitOnC '\n' ft) 0 (by norm_num)
    omega
  · rw [fileTreeSectionChars, if_pos h]
  · have h1 := joinNlC_length (truncLoop (splitOnC '\n' ft) 0)
    have h2 := sumLen_le (truncLoop (splitOnC '\n' ft) 0)
    have h3 := truncLoop_tokens (splitOnC '\n' ft) 0 (by norm_num)
    omega

lemma c5_cex_calc :
    treeTokens (List.replicate 60000 '\n') = 15000 ∧
    (fileTreeSectionChars (List.replicate 60000 '\n')).length = 60044 := by
  have h1 : treeTokens (List.replicate 60000 '\n') = 15000 := by
    rw [treeTokens, List.length_replicate]
  refine ⟨h1, ?_⟩
  rw [fileTreeSectionChars, if_pos (by rw [h1]; norm_num)]
  rw [splitOnC_replicate_nl, truncLoop_replicate_nil _ _ (by norm_num),
    joinNlC_replicate_nil]
  rw [List.length_append, List.length_replicate]
  rfl

section DbLemmas

variable {κ α : Type} [BEq κ] [LawfulBEq κ]

lemma find?_update_self (l : List (κ × α)) (id : κ) (new : α)
    (h : (l.find? (fun p => p.1 == id)).isSome) :
    (l.map (fun p => if p.1 == id then (id, new) else p)).find? (fun p => p.1 == id)
      = some (id, new) := by
  induction l with
  | nil => simp at h
  | cons a t ih =>
    by_cases ha : a.1 = id
    · rw [List.map_cons, if_pos (by simp [ha])]
      exact List.find?_cons_of_pos _ (by simp)
    · rw [List.map_cons, if_neg (by simp [ha])]
      rw [List.find?_cons_of_neg _ (by simp [ha])]
      apply ih
      rwa [List.find?_cons_of_neg _ (by simp [ha])] at h

lemma find?_update_ne (l : List (κ × α)) (id k : κ) (new : α) (hne : k ≠ id) :
    (l.map (fun p => if p.1 == id then (id, new) else p)).find? (fun p => p.1 == k)
      = l.find? (fun p => p.1 == k) := by
  induction l with
  | nil => simp
  | cons a t ih =>
    by_cases ha : a.1 = id
    · rw [List.map_cons, if_pos (by simp [ha])]
      rw [List.find?_cons_of_neg _ (by simp; exact fun hh => hne hh.symm)]
      rw [List.find?_cons_of_neg _ (by simp [ha]; exact fun hh => hne hh.symm)]
      exact ih
    · rw [List.map_cons, if_neg (by simp [ha])]
      by_cases hk : a.1 = k
      · rw [List.find?_cons_of_pos _ (by simp [hk]), List.find?_cons_of_pos _ (by simp [hk])]
      · rw [List.find?_cons_of_neg _ (by simp [hk]), List.find?_cons_of_neg _ (by simp [hk])]
        exact ih

end DbLemmas

lemma getStage_save_self (db : DbState) (taskId name description : String) (completed : Bool)
    (executionTime : Option Nat) (error : Option String) :
    getStageRow (saveStageOp db taskId name description completed executionTime error)
        taskId name = some ⟨description, completed, executionTime, error⟩ := by
  rw [saveStageOp]
  by_cases h : db.stages.any (·.1 == (taskId, name))
  · rw [if_pos h, getStageRow]
    simp only
    have hs : (db.stages.find? (fun p => p.1 == (taskId, name))).isSome := by
      rw [List.find?_isSome]
      obtain ⟨x, hx, hb⟩ := List.any_eq_true.mp h
      exact ⟨x, hx, hb⟩
    rw [find?_update_self _ _ _ hs]
    rfl
  · rw [if_neg h, getStageRow]
    simp only
    rw [List.find?_append]
    have hnone : db.stages.find? (fun p => p.1 == (taskId, name)) = none := by
      rw [List.find?_eq_none]
      intro x hx hb
      exact h (List.any_eq_true.mpr ⟨x, hx, hb⟩)
    rw [hnone]
    simp

lemma getStage_save_ne (db : DbState) (taskId name tid2 n2 description : String)
    (completed : Bool) (executionTime : Option Nat) (error : Option String)
    (hne : (tid2, n2) ≠ (taskId, name)) :
    getStageRow (saveStageOp db taskId name description completed executionTime error)
        tid2 n2 = getStageRow db tid2 n2 := by
  rw [saveStageOp]
  by_cases h : db.stages.any (·.1 == (taskId, name))
  · rw [if_pos h, getStageRow, getStageRow]
    simp only
    rw [find?_update_ne _ _ _ _ hne]
  · rw [if_neg h, getStageRow, getStageRow]
    simp only
    rw [List.find?_append]
    cases hf : db.stages.find? (fun p => p.1 == (tid2, n2)) with
    | some v => simp
    | none =>
      simp only [Option.none_or]
      rw [List.find?_cons_of_neg _ (by
        simp only [beq_iff_eq]
        exact fun hh => hne hh.symm)]
      simp [List.find?]

lemma getTask_save_stage (db : DbState) (taskId name description : String) (completed : Bool)
    (executionTime : Option Nat) (error : Option String) (id2 : String) :
    getTaskRow (saveStageOp db taskId name description completed executionTime error) id2
      = getTaskRow db id2 := by
  rw [saveStageOp]
  by_cases h : db.stages.any (·.1 == (taskId, name)) <;> simp [h, getTaskRow]

lemma getTask_save_self (db : DbState) (now taskId repoUrl title status : String)
    (progress : Nat)
    (currentStage error createdAt completedAt outputUrl taskData : Option String)
    (old : JobRow) (h : getTaskRow db taskId = some old) :
    getTaskRow (saveTaskOp db now taskId repoUrl title status progress currentStage error
        createdAt completedAt outputUrl taskData) taskId
      = some ⟨repoUrl, title, status, progress, currentStage, error, old.createdAt,
          completedAt, outputUrl, taskData⟩ := by
  rw [saveTaskOp, h, getTaskRow]
  simp only
  have hs : (db.tasks.find? (fun p => p.1 == taskId)).isSome := by
    rw [getTaskRow] at h
    cases hf : db.tasks.find? (·.1 == taskId) with
    | none => rw [hf] at h; simp at h
    | some v => simp
  rw [find?_update_self _ _ _ hs]
  rfl

lemma getTask_save_insert (db : DbState) (now taskId repoUrl title status : String)
    (progress : Nat)
    (currentStage error createdAt completedAt outputUrl taskData : Option String)
    (h : getTaskRow db taskId = none) :
    getTaskRow (saveTaskOp db now taskId repoUrl title status progress currentStage error
        createdAt completedAt outputUrl taskData) taskId
      = some ⟨repoUrl, title, status, progress, currentStage, error,
          pyOrNow createdAt now, completedAt, outputUrl, taskData⟩ := by
  rw [saveTaskOp, h, getTaskRow]
  simp only
  rw [List.find?_append]
  have hnone : db.tasks.find? (fun p => p.1 == taskId) = none := by
    rw [getTaskRow] at h
    cases hf : db.tasks.find? (·.1 == taskId) with
    | none => rfl
    | some v => rw [hf] at h; simp at h
  rw [hnone]
  simp

lemma getStage_save_task (db : DbState) (now taskId repoUrl title status : String)
    (progress : Nat)
    (currentStage error createdAt completedAt outputUrl taskData : Option String)
    (id2 n2 : String) :
    getStageRow (saveTaskOp db now taskId repoUrl title status progress currentStage error
        createdAt completedAt outputUrl taskData) id2 n2 = getStageRow db id2 n2 := by
  rw [saveTaskOp]
  cases getTaskRow db taskId <;> simp [getStageRow]

lemma getTask_delete_self (db : DbState) (taskId : String) :
    getTaskRow (deleteTaskOp db taskId) taskId = none := by
  rw [deleteTaskOp, getTaskRow]
  simp only
  rw [show (db.tasks.filter (fun p => !(p.1 == taskId))).find? (fun p => p.1 == taskId)
      = none from ?_]
  · rfl
  rw [List.find?_eq_none]
  intro x hx hb
  have := List.of_mem_filter hx
  rw [hb] at this
  simp at this

lemma getStage_delete_self (db : DbState) (taskId n : String) :
    getStageRow (deleteTaskOp db taskId) taskId n = none := by
  rw [deleteTaskOp, getStageRow]
  simp only
  rw [show (db.stages.filter (fun p => !(p.1.1 == taskId))).find? (fun p => p.1 == (taskId, n))
      = none from ?_]
  · rfl
  rw [List.find?_eq_none]
  intro x hx hb
  have hm := List.of_mem_filter hx
  have hx1 : x.1 = (taskId, n) := by simpa using hb
  rw [hx1] at hm
  simp at hm

lemma queue_save_task (db : DbState) (now taskId repoUrl title status : String)
    (progress : Nat)
    (currentStage error createdAt completedAt outputUrl taskData : Option String) :
    (saveTaskOp db now taskId repoUrl title status progress currentStage error
        createdAt completedAt outputUrl taskData).queue = db.queue := by
  rw [saveTaskOp]
  cases getTaskRow db taskId <;> rfl

lemma queue_save_stage (db : DbState) (taskId name description : String) (completed : Bool)
    (executionTime : Option Nat) (error : Option String) :
    (saveStageOp db taskId name description completed executionTime error).queue
      = db.queue := by
  rw [saveStageOp]
  by_cases h : db.stages.any (·.1 == (taskId, name)) <;> simp [h]

lemma getTaskRow_queue (d : DbState) (q : List (String × String × String × Option String))
    (i : String) : getTaskRow { d with queue := q } i = getTaskRow d i := rfl

lemma getStageRow_queue (d : DbState) (q : List (String × String × String × Option String))
    (i n : String) : getStageRow { d with queue := q } i n = getStageRow d i n := rfl

lemma c4_main (db : DbState) (now repoUrl title : String) (row : JobRow)
    (h : getTaskRow db (requestIdOf repoUrl title) = some row) :
    (endpointGenerate db now repoUrl title true).1 = requestIdOf repoUrl title ∧
    getTaskRow (endpointGenerate db now repoUrl title true).2 (requestIdOf repoUrl title)
      = some ⟨repoUrl, title, "pending", 0, none, none, now, none, none,
          some ("Documentation generation for \x27" ++ title ++ "\x27 has been started")⟩ ∧
    (∀ p ∈ fiveStages,
      getStageRow (endpointGenerate db now repoUrl title true).2 (requestIdOf repoUrl title)
        p.1 = some ⟨p.2, false, none, none⟩) ∧
    (∀ n, n ∉ fiveStageNames →
      getStageRow (endpointGenerate db now repoUrl title true).2 (requestIdOf repoUrl title)
        n = none) ∧
    (endpointGenerate db now repoUrl title true).2.queue
      = db.queue ++ [(requestIdOf repoUrl title, repoUrl, title, none)] := by
  have hE : endpointGenerate db now repoUrl title true =
      submitFresh (deleteTaskOp db (requestIdOf repoUrl title)) now
        (requestIdOf repoUrl title) repoUrl title none := by
    unfold endpointGenerate
    simp only [h, submitJob, getTask_delete_self]
  refine ⟨?_, ?_, ?_, ?_, ?_⟩
  · rw [hE, submitFresh]
  · rw [hE, submitFresh]
    simp only [fiveStages, List.foldl]
    rw [getTaskRow_queue, getTask_save_stage, getTask_save_stage, getTask_save_stage,
      getTask_save_stage, getTask_save_stage]
    rw [getTask_save_insert _ _ _ _ _ _ _ _ _ _ _ _ _ (getTask_delete_self db _)]
    simp [pyOrNow]
  · intro p hp
    rw [hE, submitFresh]
    simp only [fiveStages, List.foldl]
    rw [getStageRow_queue]
    simp only [fiveStages, List.mem_cons, List.not_mem_nil, or_false] at hp
    rcases hp with rfl | rfl | rfl | rfl | rfl
    · rw [getStage_save_ne _ _ _ _ _ _ _ _ _ (by simp),
        getStage_save_ne _ _ _ _ _ _ _ _ _ (by simp),
        getStage_save_ne _ _ _ _ _ _ _ _ _ (by simp),
        getStage_save_ne _ _ _ _ _ _ _ _ _ (by simp),
        getStage_save_self]
    · rw [getStage_save_ne _ _ _ _ _ _ _ _ _ (by simp),
        getStage_save_ne _ _ _ _ _ _ _ _ _ (by simp),
        getStage_save_ne _ _ _ _ _ _ _ _ _ (by simp),
        getStage_save_self]
    · rw [getStage_save_ne _ _ _ _ _ _ _ _ _ (by simp),
        getStage_save_ne _ _ _ _ _ _ _ _ _ (by simp),
        getStage_save_self]
    · rw [getStage_save_ne _ _ _ _ _ _ _ _ _ (by simp),
        getStage_save_self]
    · rw [getStage_save_self]
  · intro n hn
    simp only [fiveStageNames, fiveStages, List.map_cons, List.map_nil, List.mem_cons,
      List.not_mem_nil, or_false, not_or] at hn
    obtain ⟨h1, h2, h3, h4, h5⟩ := hn
    rw [hE, submitFresh]
    simp only [fiveStages, List.foldl]
    rw [getStageRow_queue]
    rw [getStage_save_ne _ _ _ _ _ _ _ _ _ (by simp [h5]),
      getStage_save_ne _ _ _ _ _ _ _ _ _ (by simp [h4]),
      getStage_save_ne _ _ _ _ _ _ _ _ _ (by simp [h3]),
      getStage_save_ne _ _ _ _ _ _ _ _ _ (by simp [h2]),
      getStage_save_ne _ _ _ _ _ _ _ _ _ (by simp [h1])]
    rw [getStage_save_task]
    exact getStage_delete_self db _ n
  · rw [hE, submitFresh]
    simp only [fiveStages, List.foldl]
    show (_ ++ _) = _
    rw [queue_save_stage, queue_save_stage, queue_save_stage, queue_save_stage,
      queue_save_stage, queue_save_task]
    rfl

lemma c10_main (db : DbState) (now repoUrl title : String) (row : JobRow)
    (h : getTaskRow db (requestIdOf repoUrl title) = some row) :
    (row.status = "failed" →
      (submitJob db now repoUrl title none false).1 = requestIdOf repoUrl title ∧
      (submitJob db now repoUrl title none false).2.queue
        = db.queue ++ [(requestIdOf repoUrl title, repoUrl, title, none)] ∧
      (getTaskRow (submitJob db now repoUrl title none false).2
          (requestIdOf repoUrl title)).map (·.status) = some "pending" ∧
      (getTaskRow (submitJob db now repoUrl title none false).2
          (requestIdOf repoUrl title)).map (·.progress) = some 0 ∧
      (∀ p ∈ fiveStages,
        getStageRow (submitJob db now repoUrl title none false).2
          (requestIdOf repoUrl title) p.1 = some ⟨p.2, false, none, none⟩)) ∧
    (row.status ≠ "failed" →
      submitJob db now repoUrl title none false = (requestIdOf repoUrl title, db)) := by
  constructor
  · intro hf
    have hE : submitJob db now repoUrl title none false =
        submitFresh db now (requestIdOf repoUrl title) repoUrl title none := by
      rw [submitJob, h]
      simp [hf]
    refine ⟨?_, ?_, ?_, ?_, ?_⟩
    · rw [hE, submitFresh]
    · rw [hE, submitFresh]
      simp only [fiveStages, List.foldl]
      show (_ ++ _) = _
      rw [queue_save_stage, queue_save_stage, queue_save_stage, queue_save_stage,
        queue_save_stage, queue_save_task]
    · rw [hE, submitFresh]
      simp only [fiveStages, List.foldl]
      rw [getTaskRow_queue, getTask_save_stage, getTask_save_stage, getTask_save_stage,
        getTask_save_stage, getTask_save_stage]
      rw [getTask_save_self _ _ _ _ _ _ _ _ _ _ _ _ _ row h]
      rfl
    · rw [hE, submitFresh]
      simp only [fiveStages, List.foldl]
      rw [getTaskRow_queue, getTask_save_stage, getTask_save_stage, getTask_save_stage,
        getTask_save_stage, getTask_save_stage]
      rw [getTask_save_self _ _ _ _ _ _ _ _ _ _ _ _ _ row h]
      rfl
    · intro p hp
      rw [hE, submitFresh]
      simp only [fiveStages, List.foldl]
      rw [getStageRow_queue]
      simp only [fiveStages, List.mem_cons, List.not_mem_nil, or_false] at hp
      rcases hp with rfl | rfl | rfl | rfl | rfl
      · rw [getStage_save_ne _ _ _ _ _ _ _ _ _ (by simp),
          getStage_save_ne _ _ _ _ _ _ _ _ _ (by simp),
          getStage_save_ne _ _ _ _ _ _ _ _ _ (by simp),
          getStage_save_ne _ _ _ _ _ _ _ _ _ (by simp),
          getStage_save_self]
      · rw [getStage_save_ne _ _ _ _ _ _ _ _ _ (by simp),
          getStage_save_ne _ _ _ _ _ _ _ _ _ (by simp),
          getStage_save_ne _ _ _ _ _ _ _ _ _ (by simp),
          getStage_save_self]
      · rw [getStage_save_ne _ _ _ _ _ _ _ _ _ (by simp),
          getStage_save_ne _ _ _ _ _ _ _ _ _ (by simp),
          getStage_save_self]
      · rw [getStage_save_ne _ _ _ _ _ _ _ _ _ (by simp),
          getStage_save_self]
      · rw [getStage_save_self]
  · intro hf
    rw [submitJob, h]
    simp [hf]

/-- Claim C1 (amended): with a generator, fetch and store that always
succeed, a submitted job ends `completed` with a non-empty `output_url` and
`code_analysis` and `planning` persisted completed; but `content_generation`,
`optimization` and `quality_check` are persisted with `completed = false`
(the compile step of the optimization branch calls a method that does not
exist, and chapter results are stored under per-chapter names). -/
theorem c1_all_success_run (env : Env) (ft rm : String) (g : Nat → String)
    (repoUrl title : String)
    (hFetch : env.fetch = Except.ok (ft, rm))
    (hSave : ∀ n, env.taskSaveOk n = true)
    (hOk : ∀ k, env.attempt k 0 = Except.ok (g k)) :
    finalStatus (runSubmittedJob env repoUrl title) = some "completed" ∧
    (∃ u, (finalTask (runSubmittedJob env repoUrl title)).map (·.outputUrl)
        = some (some u) ∧ u ≠ "") ∧
    stageCompleted (runSubmittedJob env repoUrl title) "code_analysis" = some true ∧
    stageCompleted (runSubmittedJob env repoUrl title) "planning" = some true ∧
    stageCompleted (runSubmittedJob env repoUrl title) "optimization" = some false ∧
    stageCompleted (runSubmittedJob env repoUrl title) "quality_check" = some false ∧
    stageCompleted (runSubmittedJob env repoUrl title) "content_generation" = some false :=
  c1_main env ft rm g repoUrl title hFetch hSave hOk

/-- Claim C1 witness: the amended statement at the concrete all-success
environment `env1`. -/
theorem c1_all_success_witness :
    env1.fetch = Except.ok ("tree", "readme") ∧
    (finalStatus (runSubmittedJob env1 "https://github.com/acme/foo" "Foo Docs")
        = some "completed" ∧
      (∃ u, (finalTask (runSubmittedJob env1 "https://github.com/acme/foo" "Foo Docs")).map
          (·.outputUrl) = some (some u) ∧ u ≠ "") ∧
      stageCompleted (runSubmittedJob env1 "https://github.com/acme/foo" "Foo Docs")
        "code_analysis" = some true ∧
      stageCompleted (runSubmittedJob env1 "https://github.com/acme/foo" "Foo Docs")
        "planning" = some true ∧
      stageCompleted (runSubmittedJob env1 "https://github.com/acme/foo" "Foo Docs")
        "optimization" = some false ∧
      stageCompleted (runSubmittedJob env1 "https://github.com/acme/foo" "Foo Docs")
        "quality_check" = some false ∧
      stageCompleted (runSubmittedJob env1 "https://github.com/acme/foo" "Foo Docs")
        "content_generation" = some false) :=
  ⟨rfl, c1_all_success_run env1 "tree" "readme" (fun _ => "x")
    "https://github.com/acme/foo" "Foo Docs" rfl (fun _ => rfl) (fun _ => rfl)⟩

/-- Claim C1 counterexample: in the all-success run `tr1` the job record ends
`completed`, yet the `content_generation`, `optimization` and `quality_check`
stage rows are persisted with `completed = false`, refuting "every one of the
five fixed stages is persisted with completed=true". -/
theorem c1_stage_rows_counterexample :
    finalStatus tr1 = some "completed" ∧
    (finalTask tr1).map (·.outputUrl) = some (some "/api/v2/documentation/file/index.md") ∧
    stageCompleted tr1 "code_analysis" = some true ∧
    stageCompleted tr1 "planning" = some true ∧
    stageCompleted tr1 "optimization" = some false ∧
    stageCompleted tr1 "quality_check" = some false ∧
    stageCompleted tr1 "content_generation" = some false := by decide

/-- Claim C2: the terminal status `partial` never occurs: the best-effort
block of lines 1163-1213 sits after the unconditional `return` at line 1160
and is unreachable.  In the run `tr2` a task-save exception interrupts the
pipeline after the code-analysis result exists, yet the terminal status is
`failed`, no best-effort document is written; in `tr2b` the fetch failure
ends the job `failed` as the spec says. -/
theorem c2_no_partial_status :
    (∀ (env : Env) (repoUrl title : String),
      ∀ x ∈ (runSubmittedJob env repoUrl title).taskSaves, x.status ≠ "partial") ∧
    (finalStatus tr2 = some "failed" ∧ lookupR tr2.results "code_analysis" = some "x" ∧
      tr2.files = []) ∧
    finalStatus tr2b = some "failed" :=
  ⟨fun env repoUrl title => noPartial_run env repoUrl title, by decide, by decide⟩

/-- Claim C3 (amended): when the planning stage raises a non-transient error
and every other stage succeeds, the run attempts `optimization` and
`quality_check` but never invokes the generator for `content_generation`
(no chapter fan-out exists without a plan), and the main document is the
fallback compilation whose status table shows `Planning: ❌ Failed or
Skipped`. -/
theorem c3_planning_failure_run (env : Env) (ft rm : String) (g : Nat → String) (e : String)
    (repoUrl title : String)
    (hFetch : env.fetch = Except.ok (ft, rm))
    (hSave : ∀ n, env.taskSaveOk n = true)
    (hOk : ∀ k, k ≠ 1 → env.attempt k 0 = Except.ok (g k))
    (hPl : env.attempt 1 0 = Except.error e) (hTr : isTransientMsg e = false) :
    (runSubmittedJob env repoUrl title).genCalls
      = ["code_analysis", "planning", "optimization", "quality_check"] ∧
    genCount (runSubmittedJob env repoUrl title) "content_generation" = 0 ∧
    ∃ a b, lastWrite (runSubmittedJob env repoUrl title)
        ("output/documentation/" ++ safeTitle title ++ "_" ++ requestIdOf repoUrl title
          ++ "/index.md")
      = some (a ++ ("- Planning: ❌ Failed or Skipped\n" ++ b)) :=
  c3_main env ft rm g e repoUrl title hFetch hSave hOk hPl hTr

/-- Claim C3 witness: the amended statement at the concrete environment
`env3` whose planning stage raises "planning boom". -/
theorem c3_planning_failure_witness :
    isTransientMsg "planning boom" = false ∧
    ((runSubmittedJob env3 "https://github.com/acme/foo" "Foo Docs").genCalls
      = ["code_analysis", "planning", "optimization", "quality_check"] ∧
    genCount (runSubmittedJob env3 "https://github.com/acme/foo" "Foo Docs")
      "content_generation" = 0 ∧
    ∃ a b, lastWrite (runSubmittedJob env3 "https://github.com/acme/foo" "Foo Docs")
        ("output/documentation/" ++ safeTitle "Foo Docs" ++ "_"
          ++ requestIdOf "https://github.com/acme/foo" "Foo Docs" ++ "/index.md")
      = some (a ++ ("- Planning: ❌ Failed or Skipped\n" ++ b))) :=
  ⟨by decide, c3_planning_failure_run env3 "tree" "readme" (fun _ => "x") "planning boom"
    "https://github.com/acme/foo" "Foo Docs" rfl (fun _ => rfl)
    (fun k hk => by simp [env3, hk]) rfl (by decide)⟩

set_option maxRecDepth 100000 in
/-- Claim C3 counterexample: in the run `tr3` (planning raises, all other
stages succeed) the generator is never invoked for `content_generation`,
refuting "the run still attempts the content_generation ... stages"; and the
status table of the written document reports Optimization as failed even
though the optimization stage was invoked and succeeded, because the
document is compiled before those stages run. -/
theorem c3_content_generation_counterexample :
    tr3.genCalls = ["code_analysis", "planning", "optimization", "quality_check"] ∧
    genCount tr3 "content_generation" = 0 ∧
    lookupR tr3.results "optimization" = some "x" ∧
    (lastWrite tr3 ("output/documentation/" ++ safeTitle "Foo Docs" ++ "_"
        ++ requestIdOf "https://github.com/acme/foo" "Foo Docs" ++ "/index.md")).map
      (fun s => containsSub s "- Planning: ❌ Failed or Skipped\n") = some true ∧
    (lastWrite tr3 ("output/documentation/" ++ safeTitle "Foo Docs" ++ "_"
        ++ requestIdOf "https://github.com/acme/foo" "Foo Docs" ++ "/index.md")).map
      (fun s => containsSub s "- Optimization: ❌ Failed or Skipped\n") = some true := by
  decide

/-- Claim C4: when a prior job exists for the repository, the endpoint with
`force = true` deletes the prior Job row and all its Stage rows and creates a
fresh `pending` job under the same deterministic id: the resulting task row
is exactly the fresh pending row, the five fixed stage rows are exactly the
fresh incomplete rows, every other stage row is gone, and the job is
re-enqueued. -/
theorem c4_force_resubmission (db : DbState) (now repoUrl title : String) (row : JobRow)
    (h : getTaskRow db (requestIdOf repoUrl title) = some row) :
    (endpointGenerate db now repoUrl title true).1 = requestIdOf repoUrl title ∧
    getTaskRow (endpointGenerate db now repoUrl title true).2 (requestIdOf repoUrl title)
      = some ⟨repoUrl, title, "pending", 0, none, none, now, none, none,
          some ("Documentation generation for \x27" ++ title ++ "\x27 has been started")⟩ ∧
    (∀ p ∈ fiveStages,
      getStageRow (endpointGenerate db now repoUrl title true).2 (requestIdOf repoUrl title)
        p.1 = some ⟨p.2, false, none, none⟩) ∧
    (∀ n, n ∉ fiveStageNames →
      getStageRow (endpointGenerate db now repoUrl title true).2 (requestIdOf repoUrl title)
        n = none) ∧
    (endpointGenerate db now repoUrl title true).2.queue
      = db.queue ++ [(requestIdOf repoUrl title, repoUrl, title, none)] :=
  c4_main db now repoUrl title row h

/-- Claim C4 witness: the statement at the concrete store `c4db` that holds a
prior job and stage row for the same repository. -/
theorem c4_force_resubmission_witness :
    getTaskRow c4db (requestIdOf "u" "t")
      = some ⟨"u", "t", "running", 30, some "planning", none, "C", none, none, none⟩ ∧
    ((endpointGenerate c4db "NOW" "u" "t" true).1 = requestIdOf "u" "t" ∧
    getTaskRow (endpointGenerate c4db "NOW" "u" "t" true).2 (requestIdOf "u" "t")
      = some ⟨"u", "t", "pending", 0, none, none, "NOW", none, none,
          some ("Documentation generation for \x27" ++ "t" ++ "\x27 has been started")⟩ ∧
    (∀ p ∈ fiveStages,
      getStageRow (endpointGenerate c4db "NOW" "u" "t" true).2 (requestIdOf "u" "t")
        p.1 = some ⟨p.2, false, none, none⟩) ∧
    (∀ n, n ∉ fiveStageNames →
      getStageRow (endpointGenerate c4db "NOW" "u" "t" true).2 (requestIdOf "u" "t")
        n = none) ∧
    (endpointGenerate c4db "NOW" "u" "t" true).2.queue
      = c4db.queue ++ [(requestIdOf "u" "t", "u", "t", none)]) :=
  ⟨by decide, c4_force_resubmission c4db "NOW" "u" "t"
    ⟨"u", "t", "running", 30, some "planning", none, "C", none, none, none⟩ (by decide)⟩

/-- Claim C5 (amended): whenever the file tree's token estimate exceeds the
10,000-token budget, the emitted file-tree section is the newline-rejoin of
a prefix of lines whose summed per-line token estimate is at most 10,000,
followed by the truncation marker; the rejoined text is at most
40,000 + 4·(number of kept lines) characters (the slack comes from the
floor division by 4 and the added newlines). -/
theorem c5_truncation_bounds (ft : List Char) (h : 10000 < treeTokens ft) :
    sumTokens (truncLoop (splitOnC '\n' ft) 0) ≤ 10000 ∧
    fileTreeSectionChars ft = joinNlC (truncLoop (splitOnC '\n' ft) 0) ++ truncMarker ∧
    (joinNlC (truncLoop (splitOnC '\n' ft) 0)).length ≤
      40000 + 4 * (truncLoop (splitOnC '\n' ft) 0).length :=
  c5_bounds ft h

/-- Claim C5 witness: the amended statement at the 60,000-character
newline-only file tree. -/
theorem c5_truncation_bounds_witness :
    10000 < treeTokens (List.replicate 60000 '\n') ∧
    (sumTokens (truncLoop (splitOnC '\n' (List.replicate 60000 '\n')) 0) ≤ 10000 ∧
    fileTreeSectionChars (List.replicate 60000 '\n')
      = joinNlC (truncLoop (splitOnC '\n' (List.replicate 60000 '\n')) 0) ++ truncMarker ∧
    (joinNlC (truncLoop (splitOnC '\n' (List.replicate 60000 '\n')) 0)).length ≤
      40000 + 4 * (truncLoop (splitOnC '\n' (List.replicate 60000 '\n')) 0).length) :=
  ⟨by rw [treeTokens, List.length_replicate]; norm_num,
    c5_truncation_bounds (List.replicate 60000 '\n')
      (by rw [treeTokens, List.length_replicate]; norm_num)⟩

/-- Claim C5 counterexample: a 60,000-character file tree of newlines (15,000
token-equivalents) splits into lines of zero tokens, so nothing is dropped:
the emitted section is 60,044 characters, well above ~40,000 characters plus
the truncation marker.  The per-line token budget bounds tokens, not
characters. -/
theorem c5_section_length_counterexample :
    treeTokens (List.replicate 60000 '\n') = 15000 ∧
    (fileTreeSectionChars (List.replicate 60000 '\n')).length = 60044 ∧
    40000 + truncMarker.length < 60044 :=
  ⟨c5_cex_calc.1, c5_cex_calc.2, by rw [show truncMarker.length = 44 from rfl]; norm_num⟩

/-- Claim C6: a generator raising only the recognized transient "context too
large" error is invoked exactly 3 times with backoff sleeps of 5s then 10s
before the stage fails; any non-transient error aborts after a single
invocation with no retry.  The pipeline-level conjunct runs the always-
transient generator through a submitted job: the code-analysis stage records
3 generator calls, sleeps [5, 10], and the stage row ends incomplete. -/
theorem c6_retry_policy :
    (∀ attempt : Nat → Except String String,
        (∀ k, ∃ e, attempt k = Except.error e ∧ isTransientMsg e = true) →
        (pyRetry attempt).1 = 3 ∧ (pyRetry attempt).2.1 = [5, 10] ∧
          ∃ e, (pyRetry attempt).2.2 = Except.error e) ∧
    (∀ (attempt : Nat → Except String String) (e : String),
        attempt 0 = Except.error e → isTransientMsg e = false →
        pyRetry attempt = (1, [], Except.error e)) ∧
    (genCount trR "code_analysis" = 3 ∧ stageCompleted trR "code_analysis" = some false ∧
      trR.sleeps = [5, 10]) := by
  refine ⟨?_, ?_, by decide⟩
  · intro attempt h
    obtain ⟨e0, h0, t0⟩ := h 0
    obtain ⟨e1, h1, t1⟩ := h 1
    obtain ⟨e2, h2, t2⟩ := h 2
    simp [pyRetry, pyRetryAux, h0, h1, h2, t0, t1, t2]
  · intro attempt e h ht
    simp [pyRetry, pyRetryAux, h, ht]

/-- Claim C7 (amended): the progress values written while the job is
`running` are non-decreasing provided every plan the parser can return has
at most 7 chapters; with 8 or more chapters the per-chapter progress
`40 + 5·i` overruns the optimization phase's 70. -/
theorem c7_progress_monotone (env : Env) (repoUrl title : String)
    (hCh : ∀ s p, env.parseXml s = Except.ok p → p.chapters.length ≤ 7) :
    nondec (runningOf (runSubmittedJob env repoUrl title).taskSaves) = true :=
  nondec_run env repoUrl title hCh

/-- Claim C7 witness: the amended statement at the all-success environment
`env1`, whose parser never returns a plan. -/
theorem c7_progress_monotone_witness :
    nondec (runningOf (runSubmittedJob env1 "https://github.com/acme/foo"
      "Foo Docs").taskSaves) = true :=
  c7_progress_monotone env1 "https://github.com/acme/foo" "Foo Docs"
    (fun s p hp => Except.noConfusion hp)

/-- Claim C7 counterexample: with an 8-chapter plan the recorded running
progress sequence is [10, 20, 20, 30, 40, 45, 50, 55, 60, 65, 70, 75, 70, 85]:
the eighth chapter writes 75 and the optimization phase then writes 70, so
the sequence decreases. -/
theorem c7_progress_counterexample :
    runningOf tr7.taskSaves = [10, 20, 20, 30, 40, 45, 50, 55, 60, 65, 70, 75, 70, 85] ∧
    nondec (runningOf tr7.taskSaves) = false := by decide

/-- Claim C8 (amended): a job upsert with an existing id rewrites every
column except `id` and `created_at` with the call's arguments; omitted
(`none`) fields are cleared rather than preserved — not only `output_url`,
`error` and `completed_at`. -/
theorem c8_upsert_overwrites (db : DbState) (now taskId repoUrl title status : String)
    (progress : Nat)
    (currentStage error createdAt completedAt outputUrl taskData : Option String)
    (old : JobRow) (h : getTaskRow db taskId = some old) :
    getTaskRow (saveTaskOp db now taskId repoUrl title status progress currentStage error
        createdAt completedAt outputUrl taskData) taskId
      = some ⟨repoUrl, title, status, progress, currentStage, error, old.createdAt,
          completedAt, outputUrl, taskData⟩ :=
  getTask_save_self db now taskId repoUrl title status progress currentStage error
    createdAt completedAt outputUrl taskData old h

/-- Claim C8 witness: the amended statement at the concrete store `c8db`. -/
theorem c8_upsert_overwrites_witness :
    getTaskRow c8db "t"
      = some ⟨"r", "T", "running", 30, some "planning", some "boom", "C", none, none, some "d"⟩ ∧
    getTaskRow (saveTaskOp c8db "NOW" "t" "r" "T2" "running" 50 none none none none none none)
        "t"
      = some ⟨"r", "T2", "running", 50, none, none, "C", none, none, none⟩ :=
  ⟨by decide, c8_upsert_overwrites c8db "NOW" "t" "r" "T2" "running" 50 none none none none
    none none ⟨"r", "T", "running", 30, some "planning", some "boom", "C", none, none, some "d"⟩
    (by decide)⟩

/-- Claim C8 counterexample: an update that omits `current_stage` and
`task_data` clears them: the prior row held `current_stage = "planning"` and
`task_data = "d"`, and after an upsert passing neither, both are NULL —
refuting "fields not provided in the write are left unchanged". -/
theorem c8_cleared_fields_counterexample :
    (getTaskRow c8db "t").map (·.currentStage) = some (some "planning") ∧
    (getTaskRow c8db "t").map (·.taskData) = some (some "d") ∧
    (getTaskRow (saveTaskOp c8db "NOW" "t" "r" "T" "running" 50 none none none none none none)
        "t").map (·.currentStage) = some none ∧
    (getTaskRow (saveTaskOp c8db "NOW" "t" "r" "T" "running" 50 none none none none none none)
        "t").map (·.taskData) = some none := by decide

/-- Claim C9: plan handling never raises into the pipeline — for every input
state the planning phase returns normally (malformed planning output
included) — and in every "no plan" run (planning errored, no plan tags, or
parse failure) the main document written is the flat fallback compilation. -/
theorem c9_plan_extraction_safe (env : Env) (ft rm : String) (repoUrl title : String)
    (hFetch : env.fetch = Except.ok (ft, rm))
    (hSave : ∀ n, env.taskSaveOk n = true)
    (hNP : noPlanRun env) :
    (∀ (title2 repoUrl2 docDir mainPath : String) (t : Trace),
      ∃ u t2, planPhase env title2 repoUrl2 docDir mainPath t = (t2, Except.ok u)) ∧
    ∃ res, lastWrite (runSubmittedJob env repoUrl title)
        ("output/documentation/" ++ safeTitle title ++ "_" ++ requestIdOf repoUrl title
          ++ "/index.md")
      = some (compileWithFallback env.now res (some title) (some repoUrl)) :=
  ⟨fun title2 repoUrl2 docDir mainPath t => Tot_planPhase env title2 repoUrl2 docDir mainPath t,
    c9b_main env (ft, rm) repoUrl title hFetch hSave hNP⟩

/-- Claim C9 witness: the statement at the environment `env1`, whose planning
output "x" holds no plan tags. -/
theorem c9_plan_extraction_safe_witness :
    noPlanRun env1 ∧
    ((∀ (title2 repoUrl2 docDir mainPath : String) (t : Trace),
      ∃ u t2, planPhase env1 title2 repoUrl2 docDir mainPath t = (t2, Except.ok u)) ∧
    ∃ res, lastWrite (runSubmittedJob env1 "https://github.com/acme/foo" "Foo Docs")
        ("output/documentation/" ++ safeTitle "Foo Docs" ++ "_"
          ++ requestIdOf "https://github.com/acme/foo" "Foo Docs" ++ "/index.md")
      = some (compileWithFallback env1.now res (some "Foo Docs")
          (some "https://github.com/acme/foo"))) :=
  ⟨Or.inr (Or.inl ⟨"x", rfl, by decide⟩),
    c9_plan_extraction_safe env1 "tree" "readme" "https://github.com/acme/foo" "Foo Docs"
      rfl (fun _ => rfl) (Or.inr (Or.inl ⟨"x", rfl, by decide⟩))⟩

/-- Claim C10: with `force = false` and an existing job under the derived id,
a `failed` job is reset to pending (task row pending/0, the five stage rows
incomplete) and re-enqueued; any other existing status returns the existing
id with the store untouched and nothing enqueued. -/
theorem c10_resubmit_only_failed (db : DbState) (now repoUrl title : String) (row : JobRow)
    (h : getTaskRow db (requestIdOf repoUrl title) = some row) :
    (row.status = "failed" →
      (submitJob db now repoUrl title none false).1 = requestIdOf repoUrl title ∧
      (submitJob db now repoUrl title none false).2.queue
        = db.queue ++ [(requestIdOf repoUrl title, repoUrl, title, none)] ∧
      (getTaskRow (submitJob db now repoUrl title none false).2
          (requestIdOf repoUrl title)).map (·.status) = some "pending" ∧
      (getTaskRow (submitJob db now repoUrl title none false).2
          (requestIdOf repoUrl title)).map (·.progress) = some 0 ∧
      (∀ p ∈ fiveStages,
        getStageRow (submitJob db now repoUrl title none false).2
          (requestIdOf repoUrl title) p.1 = some ⟨p.2, false, none, none⟩)) ∧
    (row.status ≠ "failed" →
      submitJob db now repoUrl title none false = (requestIdOf repoUrl title, db)) :=
  c10_main db now repoUrl title row h

/-- Claim C10 witness: the statement at the concrete store `c10db` holding a
failed job. -/
theorem c10_resubmit_only_failed_witness :
    getTaskRow c10db (requestIdOf "u" "t")
      = some ⟨"u", "t", "failed", 0, none, some "boom", "C", none, none, none⟩ ∧
    (((⟨"u", "t", "failed", 0, none, some "boom", "C", none, none, none⟩ : JobRow).status
        = "failed" →
      (submitJob c10db "NOW" "u" "t" none false).1 = requestIdOf "u" "t" ∧
      (submitJob c10db "NOW" "u" "t" none false).2.queue
        = c10db.queue ++ [(requestIdOf "u" "t", "u", "t", none)] ∧
      (getTaskRow (submitJob c10db "NOW" "u" "t" none false).2
          (requestIdOf "u" "t")).map (·.status) = some "pending" ∧
      (getTaskRow (submitJob c10db "NOW" "u" "t" none false).2
          (requestIdOf "u" "t")).map (·.progress) = some 0 ∧
      (∀ p ∈ fiveStages,
        getStageRow (submitJob c10db "NOW" "u" "t" none false).2
          (requestIdOf "u" "t") p.1 = some ⟨p.2, false, none, none⟩)) ∧
    ((⟨"u", "t", "failed", 0, none, some "boom", "C", none, none, none⟩ : JobRow).status
        ≠ "failed" →
      submitJob c10db "NOW" "u" "t" none false = (requestIdOf "u" "t", c10db))) :=
  ⟨by decide, c10_resubmit_only_failed c10db "NOW" "u" "t"
    ⟨"u", "t", "failed", 0, none, some "boom", "C", none, none, none⟩ (by decide)⟩

end DW
